import Mathlib

/-!
# InteractML (iml-ue4): task object and external-model graph node

A shallow embedding of

* `Plugins/InteractML/Source/InteractML/Public/InteractMLTask.h`
  (`EInteractMLTaskType`, `FInteractMLTask` and its constructor), and
* `Plugins/InteractML/Source/InteractMLScripting/Private/InteractMLExternalModelNode.cpp`
  (`GetNodeTitle`, `AllocateDefaultPins`, the four pin accessors, `ExpandNode`,
  `FindModelAccessFunction`),

followed by the properties established about them.

Conventions of the embedding:

* a C++ pointer is an `Option` of an address (`none` is the null pointer);
* a `float` is carried around but never computed on, so it is represented by an
  integer payload;
* a member the constructor does not initialise holds an indeterminate value, which
  is passed to the embedded constructor explicitly;
* engine calls made by the node (`FindPin`, `CreatePin`, `MovePinLinksToIntermediate`,
  `BreakAllNodeLinks`, `FGuid::ToString`) are given by small executable models of the
  engine behaviour the node relies on.
-/

set_option autoImplicit false

namespace InteractML

/-! ## InteractMLTask.h -/

/-- The payload of a C++ `float`; tasks only store and forward these values. -/
abbrev float := Int

/-- Address of a `UInteractMLModel` object. -/
abbrev ModelPtr := Nat

/-- Address of a `FInteractMLModelState` object. -/
abbrev ModelStatePtr := Nat

/-- The task type enumeration, `enum class EInteractMLTaskType`. -/
inductive EInteractMLTaskType where
  | None
  | Train
  | Run
  deriving DecidableEq

/-- One training example (`trainingExampleFloat`): a feature vector and its target. -/
structure trainingExampleFloat where
  input : List float
  output : List float
  deriving DecidableEq

/-- The task object, `struct FInteractMLTask`, field by field. The member `Type` of
the source is called `TaskType` here because `Type` is reserved. -/
structure FInteractMLTask where
  TaskType : EInteractMLTaskType
  Model : Option ModelPtr
  Context : Option ModelStatePtr
  Examples : List trainingExampleFloat
  Inputs : List float
  InputSeries : List (List float)
  bSuccess : Bool
  Outputs : List float
  deriving DecidableEq

/-- The constructor `FInteractMLTask(UInteractMLModel* model, EInteractMLTaskType action)`.
Its initialiser list sets `Type` and `Model` and its body is empty; the three vectors
and the array are default-constructed (empty). `Context` and `bSuccess` have no
initialiser, so they keep whatever the storage held: `Context₀` and `bSuccess₀`. -/
def FInteractMLTask.ctor (model : Option ModelPtr) (action : EInteractMLTaskType)
    (Context₀ : Option ModelStatePtr) (bSuccess₀ : Bool) : FInteractMLTask :=
  { TaskType := action
    Model := model
    Context := Context₀
    Examples := []
    Inputs := []
    InputSeries := []
    bSuccess := bSuccess₀
    Outputs := [] }

/-- The error kinds the specification names for the task layer. -/
inductive ErrorKind where
  | InvalidArgument
  | TrainError
  | PredictError
  deriving DecidableEq

/-- The outcome of a constructor call. The constructor has no check and no failure
path, so the outcome is always the constructed task. -/
def FInteractMLTask.Construct (model : Option ModelPtr) (action : EInteractMLTaskType)
    (Context₀ : Option ModelStatePtr) (bSuccess₀ : Bool) : Except ErrorKind FInteractMLTask :=
  Except.ok (FInteractMLTask.ctor model action Context₀ bSuccess₀)

/-- How many of the three input members of a task are populated (non-empty). -/
def FInteractMLTask.populatedCount (t : FInteractMLTask) : Nat :=
  (if t.Examples = [] then 0 else 1) + (if t.Inputs = [] then 0 else 1)
    + (if t.InputSeries = [] then 0 else 1)

/-- The input invariant in the words of the specification: exactly one of the three
input members is populated, and the populated one matches the task type
(`Examples` for `Train`, `Inputs` or `InputSeries` for `Run`). -/
def FInteractMLTask.InputInvariant (t : FInteractMLTask) : Prop :=
  t.populatedCount = 1
    ∧ (t.Examples ≠ [] → t.TaskType = EInteractMLTaskType.Train)
    ∧ (t.Inputs ≠ [] → t.TaskType = EInteractMLTaskType.Run)
    ∧ (t.InputSeries ≠ [] → t.TaskType = EInteractMLTaskType.Run)

instance (t : FInteractMLTask) : Decidable t.InputInvariant := by
  unfold FInteractMLTask.InputInvariant; infer_instance

/-! ## The model contract and `Run()` (InteractMLModel.h, InteractMLTask.cpp)

`FInteractMLTask::Run` is only declared in the header; its body and the model class
are not part of the sources at hand. They are modelled from sections 3, 4.1, 4.2 and 7
of the specification. -/

/-- Modelled from the spec: the Model State (`FInteractMLModelState`, section 3), the
per-session running context of series inference. Its content is a sequence of
retained values. -/
abbrev FInteractMLModelState := List float

/-- Modelled from the spec: the errors of `Predict` (section 7). -/
inductive PredictError where
  | ModelNotTrained
  | FeatureWidthMismatch
  deriving DecidableEq

/-- Modelled from the spec: the errors of `Train` (section 7). -/
inductive TrainError where
  | EmptyExampleSet
  | FeatureWidthMismatch
  deriving DecidableEq

/-- Modelled from the spec: the Model (`UInteractMLModel`, sections 3 and 4.2), whose
class is missing from the sources. It holds whether it is trained, the feature width
it is configured for, the mapping its current parameters compute (from the running
state and a feature vector to an output vector and the next state), and its training
procedure (from examples to such a mapping). -/
structure UInteractMLModel where
  IsTrained : Bool
  Arity : Nat
  Evaluate : FInteractMLModelState → List float → List float × FInteractMLModelState
  Fit : List trainingExampleFloat →
    FInteractMLModelState → List float → List float × FInteractMLModelState

/-- Modelled from the spec: `Predict(inputVector, &state)` of section 4.2, failing with
`ModelNotTrained` on an untrained model and with `FeatureWidthMismatch` on an input
whose width is not the configured one. -/
def UInteractMLModel.Predict (m : UInteractMLModel) (inputVector : List float)
    (state : FInteractMLModelState) :
    Except PredictError (List float × FInteractMLModelState) :=
  if m.IsTrained = false then Except.error PredictError.ModelNotTrained
  else if inputVector.length ≠ m.Arity then Except.error PredictError.FeatureWidthMismatch
  else Except.ok (m.Evaluate state inputVector)

/-- Modelled from the spec: `Train(examples)` of section 4.2, failing with
`EmptyExampleSet` on no example and with `FeatureWidthMismatch` when some example has
a feature width other than the configured one; a failure leaves the model as it was
(returned here as no new model), a success commits the fitted parameters. -/
def UInteractMLModel.Train (m : UInteractMLModel) (examples : List trainingExampleFloat) :
    Except TrainError UInteractMLModel :=
  if examples = [] then Except.error TrainError.EmptyExampleSet
  else if examples.any (fun e => decide (e.input.length ≠ m.Arity)) then
    Except.error TrainError.FeatureWidthMismatch
  else Except.ok { m with IsTrained := true, Evaluate := m.Fit examples }

/-- Modelled from the spec: series sampling of section 4.1, one `Predict` per input in
order, the running state carried from one call to the next; the first error aborts. -/
def UInteractMLModel.PredictSeries (m : UInteractMLModel) :
    List (List float) → FInteractMLModelState →
      Except PredictError (List (List float) × FInteractMLModelState)
  | [], state => Except.ok ([], state)
  | x :: rest, state =>
    match m.Predict x state with
    | Except.error e => Except.error e
    | Except.ok (out, state1) =>
      match m.PredictSeries rest state1 with
      | Except.error e => Except.error e
      | Except.ok (outs, state2) => Except.ok (out :: outs, state2)

/-- Modelled from the spec: `FInteractMLTask::Run` of section 4.1, whose body is
missing from the sources. `model` and `context` are the objects the task's `Model` and
`Context` members point to; the result is the task after the call together with the
model and the context as the call leaves them.

* `Train`: feeds `Examples` to the training procedure; success sets `bSuccess` and
  commits the model, failure clears `bSuccess` and leaves the model untouched;
  `Outputs` is not written.
* `Run`: a populated `InputSeries` is sampled as a series, otherwise `Inputs` is
  evaluated as a single sample; on success the results are written to `Outputs`
  (the output vectors of a series back to back) and `bSuccess` is set; on an error
  `bSuccess` is cleared and `Outputs` is left as it was.
* `None`: nothing is done. -/
def FInteractMLTask.Run (t : FInteractMLTask) (model : UInteractMLModel)
    (context : FInteractMLModelState) :
    FInteractMLTask × UInteractMLModel × FInteractMLModelState :=
  match t.TaskType with
  | EInteractMLTaskType.None => (t, model, context)
  | EInteractMLTaskType.Train =>
    match model.Train t.Examples with
    | Except.ok trained => ({ t with bSuccess := true }, trained, context)
    | Except.error _ => ({ t with bSuccess := false }, model, context)
  | EInteractMLTaskType.Run =>
    if t.InputSeries = [] then
      match model.Predict t.Inputs context with
      | Except.ok (out, state) => ({ t with bSuccess := true, Outputs := out }, model, state)
      | Except.error _ => ({ t with bSuccess := false }, model, context)
    else
      match model.PredictSeries t.InputSeries context with
      | Except.ok (outs, state) =>
        ({ t with bSuccess := true, Outputs := outs.flatten }, model, state)
      | Except.error _ => ({ t with bSuccess := false }, model, context)

/-- The postcondition of `Run()` in the words of section 8: exactly one of
"outputs populated" and "success = false with outputs empty" holds. -/
def FInteractMLTask.RunPostcondition (t : FInteractMLTask) : Prop :=
  (t.Outputs ≠ [] ∧ ¬ (t.bSuccess = false ∧ t.Outputs = []))
    ∨ (¬ t.Outputs ≠ [] ∧ (t.bSuccess = false ∧ t.Outputs = []))

instance (t : FInteractMLTask) : Decidable t.RunPostcondition := by
  unfold FInteractMLTask.RunPostcondition; infer_instance

/-- A model used in examples: trained, configured for feature width 2, echoing its
input and appending it to the running state. -/
def echoModel : UInteractMLModel :=
  { IsTrained := true
    Arity := 2
    Evaluate := fun state x => (x, state ++ x)
    Fit := fun _ state x => (x, state ++ x) }

/-- A model used in examples: trained, configured for feature width 2, yielding an
empty output vector for every input. -/
def silentModel : UInteractMLModel :=
  { IsTrained := true
    Arity := 2
    Evaluate := fun state _ => ([], state)
    Fit := fun _ state _ => ([], state) }

/-! ## InteractMLExternalModelNode.cpp : node title -/

/-- The engine enumeration `ENodeTitleType::Type`, by underlying value. A C++ enum
variable can hold any integer, which is what the `default:` label serves. -/
abbrev ENodeTitleType := Int

namespace ENodeTitleType

def FullTitle : ENodeTitleType := 0
def ListView : ENodeTitleType := 1
def EditableTitle : ENodeTitleType := 2
def MenuTitle : ENodeTitleType := 3
def MAX_TitleTypes : ENodeTitleType := 4

end ENodeTitleType

/-- The method `UInteractMLExternalModelNode::GetNodeTitle`. `LOCTEXT` yields its
source text (no translation loaded) and `FText::FromString` keeps the string. -/
def GetNodeTitle (TitleType : ENodeTitleType) : String :=
  let title := "Model"
  if TitleType = ENodeTitleType.FullTitle then
    (title ++ "\n") ++ "External model data file"
  else if TitleType = ENodeTitleType.EditableTitle then
    ""
  else
    ((title ++ " (") ++ "External") ++ ")"

/-! ## Engine model: names, GUIDs, pins, nodes, graphs

The node file is written against the engine's graph classes. The part of their
behaviour the node relies on is modelled here: a graph is a list of nodes, a node
holds its pins in creation order, and a pin pointer is the position of the node in
the graph together with the position of the pin in the node. -/

/-- The engine's `FName`. Names compare without regard to case, so two names are
the same when their case-folded texts agree. -/
structure FName where
  Text : String
  deriving DecidableEq

/-- The case-folded text of a name, the key `FName` comparison uses. -/
def FName.key (n : FName) : List Char :=
  n.Text.toList.map Char.toLower

/-- The comparison `operator==` of `FName`. -/
def FName.same (a b : FName) : Bool :=
  decide (a.key = b.key)

/-- The engine's `FGuid`: four 32-bit words. -/
structure FGuid where
  A : Nat
  B : Nat
  C : Nat
  D : Nat
  deriving DecidableEq

/-- A GUID whose four words are in the range of `uint32`. -/
def FGuid.Valid (g : FGuid) : Prop :=
  g.A < 4294967296 ∧ g.B < 4294967296 ∧ g.C < 4294967296 ∧ g.D < 4294967296

instance (g : FGuid) : Decidable g.Valid := by
  unfold FGuid.Valid; infer_instance

/-- One upper-case hexadecimal digit, as `%X` prints it. -/
def hexDigit (d : Nat) : Char :=
  match d with
  | 0 => '0' | 1 => '1' | 2 => '2' | 3 => '3'
  | 4 => '4' | 5 => '5' | 6 => '6' | 7 => '7'
  | 8 => '8' | 9 => '9' | 10 => 'A' | 11 => 'B'
  | 12 => 'C' | 13 => 'D' | 14 => 'E' | _ => 'F'

/-- The format `%08X` applied to a `uint32`: eight hexadecimal digits, most
significant first, of the word taken modulo 2^32. -/
def hex8 (n : Nat) : List Char :=
  let w := n % 4294967296
  [hexDigit (w / 268435456 % 16), hexDigit (w / 16777216 % 16),
   hexDigit (w / 1048576 % 16), hexDigit (w / 65536 % 16),
   hexDigit (w / 4096 % 16), hexDigit (w / 256 % 16),
   hexDigit (w / 16 % 16), hexDigit (w % 16)]

/-- The formats of `FGuid::ToString` the node uses. -/
inductive EGuidFormats where
  | Digits
  deriving DecidableEq

/-- The engine's `FGuid::ToString`; `EGuidFormats::Digits` prints the four words with
`%08X%08X%08X%08X`, 32 digits in all. -/
def FGuid.ToString (g : FGuid) (Format : EGuidFormats) : String :=
  match Format with
  | EGuidFormats.Digits => String.mk (hex8 g.A ++ hex8 g.B ++ hex8 g.C ++ hex8 g.D)

/-- Direction of a pin, `EEdGraphPinDirection`. -/
inductive EEdGraphPinDirection where
  | EGPD_Input
  | EGPD_Output
  deriving DecidableEq

/-- A pointer to a pin (`UEdGraphPin*`): the node's position in the graph and the
pin's position in the node's `Pins` array. -/
structure PinPtr where
  Node : Nat
  Index : Nat
  deriving DecidableEq

/-- A graph pin, `UEdGraphPin`, with the members the node reads or writes. -/
structure UEdGraphPin where
  PinName : FName
  Direction : EEdGraphPinDirection
  PinCategory : String
  PinSubCategoryObject : Option String
  PinToolTip : String
  DefaultValue : String
  LinkedTo : List PinPtr
  deriving DecidableEq

/-- One parameter of a reflected function. -/
structure FunctionParam where
  Name : FName
  Category : String
  IsOutput : Bool
  deriving DecidableEq

/-- A reflected function, `UFunction`: owner class, name, parameters, and the pin
category of its return value if it has one. -/
structure UFunction where
  OwnerClass : String
  Name : FName
  Params : List FunctionParam
  ReturnCategory : Option String
  deriving DecidableEq

/-- A graph node, `UEdGraphNode`: its class, the function a call node refers to
(`FunctionReference`, unset on other nodes), its GUID and its pins. -/
structure UEdGraphNode where
  NodeClass : String
  FunctionReference : Option UFunction
  NodeGuid : FGuid
  Pins : List UEdGraphPin
  deriving DecidableEq

/-- A graph, `UEdGraph`: its nodes, a spawned node being added last. -/
structure UEdGraph where
  Nodes : List UEdGraphNode
  deriving DecidableEq

/-- What stops the editor: a failed `check` or the dereference of a null pointer. -/
inductive Fault where
  | CheckFailed
  | NullDereference
  deriving DecidableEq

/-- Position of the first pin with the given name in a pin array. -/
def FindPinIdx (PinName : FName) : List UEdGraphPin → Option Nat
  | [] => none
  | p :: rest =>
    if p.PinName.same PinName then some 0
    else (FindPinIdx PinName rest).map (fun i => i + 1)

/-- The engine's `UEdGraphNode::FindPin(name)`: the first pin of the node with that
name, in any direction, or null. -/
def UEdGraphNode.FindPin (nd : UEdGraphNode) (PinName : FName) : Option Nat :=
  FindPinIdx PinName nd.Pins

/-- The engine's `UEdGraphNode::FindPinChecked(name)`: as `FindPin`, with a `check`
that the pin exists. -/
def UEdGraphNode.FindPinChecked (nd : UEdGraphNode) (PinName : FName) : Except Fault Nat :=
  match nd.FindPin PinName with
  | some i => Except.ok i
  | none => Except.error Fault.CheckFailed

/-- The pattern shared by the pin getters: `FindPin`, then
`check(Pin == NULL || Pin->Direction == dir)`, then return the pin. -/
def UEdGraphNode.FindPinWithDirection (nd : UEdGraphNode) (PinName : FName)
    (dir : EEdGraphPinDirection) : Except Fault (Option Nat) :=
  match nd.FindPin PinName with
  | none => Except.ok none
  | some i =>
    if (nd.Pins[i]?).map (fun p => p.Direction) = some dir then Except.ok (some i)
    else Except.error Fault.CheckFailed

/-- The engine's `UEdGraphNode::CreatePin`: a new unlinked pin at the end of the
node's `Pins`; the result is the node and the new pin's position. -/
def UEdGraphNode.CreatePin (nd : UEdGraphNode) (Dir : EEdGraphPinDirection)
    (PinCategory : String) (PinSubCategoryObject : Option String) (PinName : FName) :
    UEdGraphNode × Nat :=
  ({ nd with Pins := nd.Pins ++ [{ PinName := PinName, Direction := Dir,
                                   PinCategory := PinCategory,
                                   PinSubCategoryObject := PinSubCategoryObject,
                                   PinToolTip := "", DefaultValue := "", LinkedTo := [] }] },
   nd.Pins.length)

/-- The pin array with the pin at position `i` replaced by `f` of it. -/
def modifyAt (f : UEdGraphPin → UEdGraphPin) : Nat → List UEdGraphPin → List UEdGraphPin
  | _, [] => []
  | 0, p :: rest => f p :: rest
  | i + 1, p :: rest => p :: modifyAt f i rest

/-- A write through a pin pointer held on the node itself: the pin at position `i`
is replaced by `f` of it. -/
def UEdGraphNode.updatePin (nd : UEdGraphNode) (i : Nat) (f : UEdGraphPin → UEdGraphPin) :
    UEdGraphNode :=
  { nd with Pins := modifyAt f i nd.Pins }

/-- Dereference of a pin pointer obtained from a getter. -/
def deref (Pin : Option Nat) : Except Fault Nat :=
  match Pin with
  | some i => Except.ok i
  | none => Except.error Fault.NullDereference

/-- The pin a pointer designates in a graph, if any. -/
def UEdGraph.pin? (g : UEdGraph) (q : PinPtr) : Option UEdGraphPin :=
  (g.Nodes[q.Node]?).bind (fun nd => nd.Pins[q.Index]?)

/-- The links held by the pin a pointer designates. -/
def UEdGraph.linksOf (g : UEdGraph) (q : PinPtr) : List PinPtr :=
  ((g.pin? q).map (fun p => p.LinkedTo)).getD []

/-- Every pin of the graph rewritten in place by `f`, which is told the pin's pointer. -/
def UEdGraph.mapPins (f : PinPtr → UEdGraphPin → UEdGraphPin) (g : UEdGraph) : UEdGraph :=
  { Nodes := g.Nodes.mapIdx (fun n nd =>
      { nd with Pins := nd.Pins.mapIdx (fun i p => f ⟨n, i⟩ p) }) }

/-- A node added to the graph; its position is the former number of nodes. -/
def UEdGraph.AddNode (g : UEdGraph) (nd : UEdGraphNode) : UEdGraph :=
  { Nodes := g.Nodes ++ [nd] }

/-- The class, function reference and GUID of a node, without its pins. -/
def UEdGraphNode.header (nd : UEdGraphNode) : String × Option UFunction × FGuid :=
  (nd.NodeClass, nd.FunctionReference, nd.NodeGuid)

/-- The headers of the nodes of a graph, in order. -/
def UEdGraph.headers (g : UEdGraph) : List (String × Option UFunction × FGuid) :=
  g.Nodes.map UEdGraphNode.header

/-- What `MovePinLinksToIntermediate(SourcePin, IntermediatePin)` does to the pin `p`
at pointer `q`, `src` being the source pin as it is when the move starts:

* the source pin ends with no link;
* the intermediate pin gains the links of the source pin (a pin it is already linked to
  is not added again) and takes the source pin's default value;
* a pin the source pin was linked to drops the source pin from its links and gains
  the intermediate pin;
* every other pin is untouched. -/
def moveLinks (src : UEdGraphPin) (SourcePin IntermediatePin q : PinPtr) (p : UEdGraphPin) :
    UEdGraphPin :=
  if q = SourcePin then { p with LinkedTo := [] }
  else if q = IntermediatePin then
    { p with LinkedTo := p.LinkedTo ++ src.LinkedTo.filter (fun r => decide (r ∉ p.LinkedTo))
             DefaultValue := src.DefaultValue }
  else if q ∈ src.LinkedTo then
    { p with LinkedTo := p.LinkedTo.filter (fun r => decide (r ≠ SourcePin))
                          ++ [IntermediatePin] }
  else p

/-- The compiler's `MovePinLinksToIntermediate(SourcePin, IntermediatePin)`, through
the schema's `MovePinLinks`: the links of the source pin are broken and remade on the
intermediate pin, and the source pin's default value is copied over. The schema may
refuse a connection between pins of incompatible types; the pins paired by the node
have matching types, and the refusal path is not modelled. -/
def MovePinLinksToIntermediate (g : UEdGraph) (SourcePin IntermediatePin : PinPtr) :
    UEdGraph :=
  match g.pin? SourcePin with
  | none => g
  | some src => g.mapPins (moveLinks src SourcePin IntermediatePin)

/-- The engine's `UEdGraphNode::BreakAllNodeLinks` on the node at position `self`:
each of its pins breaks all its links, so the node's pins end with no link and a pin
one of them was linked to drops that pin from its own links. -/
def BreakAllNodeLinks (g : UEdGraph) (self : Nat) : UEdGraph :=
  g.mapPins (fun q p =>
    if q.Node = self then { p with LinkedTo := [] }
    else { p with LinkedTo :=
            p.LinkedTo.filter (fun r => decide (¬ (r.Node = self ∧ q ∈ g.linksOf r))) })

/-- An assignment to `Pin->DefaultValue` through a pin pointer. -/
def SetDefaultValue (g : UEdGraph) (Pin : PinPtr) (Value : String) : UEdGraph :=
  g.mapPins (fun q p => if q = Pin then { p with DefaultValue := Value } else p)

/-! ### Schema names (`UEdGraphSchema_K2`) -/

def PN_Execute : FName := ⟨"execute"⟩
def PN_Then : FName := ⟨"then"⟩
def PN_ReturnValue : FName := ⟨"ReturnValue"⟩
def PN_Self : FName := ⟨"self"⟩
def PC_Exec : String := "exec"
def PC_String : String := "string"
def PC_Byte : String := "byte"
def PC_Object : String := "object"
def PC_Boolean : String := "bool"

/-- The engine's `UK2Node::GetExecPin`. -/
def UEdGraphNode.GetExecPin (nd : UEdGraphNode) : Except Fault (Option Nat) :=
  nd.FindPinWithDirection PN_Execute EEdGraphPinDirection.EGPD_Input

/-- The engine's `UK2Node_CallFunction::GetThenPin`. -/
def UEdGraphNode.GetThenPin (nd : UEdGraphNode) : Except Fault (Option Nat) :=
  nd.FindPinWithDirection PN_Then EEdGraphPinDirection.EGPD_Output

/-- The engine's `UK2Node_CallFunction::GetReturnValuePin`. -/
def UEdGraphNode.GetReturnValuePin (nd : UEdGraphNode) : Except Fault (Option Nat) :=
  nd.FindPinWithDirection PN_ReturnValue EEdGraphPinDirection.EGPD_Output

/-- The pin a call node creates for a parameter of its function. -/
def FunctionParam.toPin (p : FunctionParam) : UEdGraphPin :=
  { PinName := p.Name
    Direction := if p.IsOutput then EEdGraphPinDirection.EGPD_Output
                 else EEdGraphPinDirection.EGPD_Input
    PinCategory := p.Category, PinSubCategoryObject := none
    PinToolTip := "", DefaultValue := "", LinkedTo := [] }

/-- The call node `SpawnIntermediateNode<UK2Node_CallFunction>` creates, after
`SetFromFunction(Function)` and `AllocateDefaultPins()`: an impure call has an
`execute` and a `then` pin, a `self` pin for its target, one pin per parameter, and an
output pin `ReturnValue` when the function returns a value; none is linked. -/
def UK2Node_CallFunction (Function : UFunction) (Guid : FGuid) : UEdGraphNode :=
  { NodeClass := "K2Node_CallFunction"
    FunctionReference := some Function
    NodeGuid := Guid
    Pins :=
      [ { PinName := PN_Execute, Direction := EEdGraphPinDirection.EGPD_Input,
          PinCategory := PC_Exec, PinSubCategoryObject := none,
          PinToolTip := "", DefaultValue := "", LinkedTo := [] },
        { PinName := PN_Then, Direction := EEdGraphPinDirection.EGPD_Output,
          PinCategory := PC_Exec, PinSubCategoryObject := none,
          PinToolTip := "", DefaultValue := "", LinkedTo := [] },
        { PinName := PN_Self, Direction := EEdGraphPinDirection.EGPD_Input,
          PinCategory := PC_Object, PinSubCategoryObject := some Function.OwnerClass,
          PinToolTip := "", DefaultValue := "", LinkedTo := [] } ]
      ++ Function.Params.map FunctionParam.toPin
      ++ (match Function.ReturnCategory with
          | some c =>
            [ { PinName := PN_ReturnValue, Direction := EEdGraphPinDirection.EGPD_Output,
                PinCategory := c, PinSubCategoryObject := none,
                PinToolTip := "", DefaultValue := "", LinkedTo := [] } ]
          | none => []) }

/-! ## InteractMLExternalModelNode.cpp : pins and expansion -/

namespace FInteractMLExternalModelNodePinNames

def DataPathInputPinName : FName := ⟨"Data Path"⟩
def ModelTypeInputPinName : FName := ⟨"Model Type"⟩
def ModelOutputPinName : FName := ⟨"Model"⟩
def IsTrainedOutputPinName : FName := ⟨"Trained?"⟩

end FInteractMLExternalModelNodePinNames

namespace FInteractMLExternalModelNodeFunctionNames

def GetModelFunctionName : FName := ⟨"GetModel"⟩

end FInteractMLExternalModelNodeFunctionNames

namespace FInteractMLExternalModelNodeModelAccessFunctionPinNames

def ActorPinName : FName := ⟨"Actor"⟩
def DataPathPinName : FName := ⟨"DataPath"⟩
def ModelTypePinName : FName := ⟨"ModelType"⟩
def NodeIDPinName : FName := ⟨"NodeID"⟩
def IsTrainedPinName : FName := ⟨"IsTrained"⟩

end FInteractMLExternalModelNodeModelAccessFunctionPinNames

/-- Modelled from the spec: the model access function
`UInteractMLBlueprintLibrary::GetModel` (section 6), whose declaration is missing from
the sources: given a context actor, a persistence path, a model-type tag and a
disambiguating identifier, it returns the model and reports whether it is trained. Its
parameters carry the pin names the node file lists for it. -/
def UInteractMLBlueprintLibrary.GetModel : UFunction :=
  { OwnerClass := "UInteractMLBlueprintLibrary"
    Name := FInteractMLExternalModelNodeFunctionNames.GetModelFunctionName
    Params :=
      [ { Name := FInteractMLExternalModelNodeModelAccessFunctionPinNames.ActorPinName,
          Category := PC_Object, IsOutput := false },
        { Name := FInteractMLExternalModelNodeModelAccessFunctionPinNames.DataPathPinName,
          Category := PC_String, IsOutput := false },
        { Name := FInteractMLExternalModelNodeModelAccessFunctionPinNames.ModelTypePinName,
          Category := PC_Byte, IsOutput := false },
        { Name := FInteractMLExternalModelNodeModelAccessFunctionPinNames.NodeIDPinName,
          Category := PC_String, IsOutput := false },
        { Name := FInteractMLExternalModelNodeModelAccessFunctionPinNames.IsTrainedPinName,
          Category := PC_Boolean, IsOutput := true } ]
    ReturnCategory := some PC_Object }

/-- The base class `UInteractMLNode` of the node, whose source is missing: what its
`AllocateDefaultPins`, `ExpandNode` and `ConnectContextActor` do to the node or to the
graph is left open. `ConnectContextActor` is told the node's position and the pointer
to the function's actor pin. -/
structure UInteractMLNode where
  AllocateDefaultPins : UEdGraphNode → UEdGraphNode
  ExpandNode : UEdGraph → Nat → UEdGraph
  ConnectContextActor : UEdGraph → Nat → PinPtr → UEdGraph

/-- What the node takes from the compiler context besides the graph: the GUID a node
spawned by `SpawnIntermediateNode` is given. -/
structure FKismetCompilerContext where
  NewGuid : FGuid

/-- The method `UInteractMLExternalModelNode::AllocateDefaultPins`, on the node `nd`.
`ModelTypeDefault` is the default value `SetPinAutogeneratedDefaultValueBasedOnType`
gives a pin of the enumeration `EInteractMLModelType`, which is declared elsewhere. -/
def AllocateDefaultPins (Super : UInteractMLNode) (ModelTypeDefault : String)
    (nd : UEdGraphNode) : UEdGraphNode :=
  let nd := Super.AllocateDefaultPins nd
  let (nd, data_pin) := nd.CreatePin EEdGraphPinDirection.EGPD_Input PC_String none
    FInteractMLExternalModelNodePinNames.DataPathInputPinName
  let nd := nd.updatePin data_pin (fun p =>
    { p with PinToolTip := "Path (optional) and Name to load/save training set data." })
  let (nd, type_pin) := nd.CreatePin EEdGraphPinDirection.EGPD_Input PC_Byte
    (some "EInteractMLModelType") FInteractMLExternalModelNodePinNames.ModelTypeInputPinName
  let nd := nd.updatePin type_pin (fun p =>
    { p with PinToolTip := "The type of the model being referred to by the data path." })
  let nd := nd.updatePin type_pin (fun p => { p with DefaultValue := ModelTypeDefault })
  let (nd, model_pin) := nd.CreatePin EEdGraphPinDirection.EGPD_Output PC_Object
    (some "UInteractMLModel") FInteractMLExternalModelNodePinNames.ModelOutputPinName
  let nd := nd.updatePin model_pin (fun p => { p with PinToolTip := "Machine learning model." })
  let (nd, is_trained_pin) := nd.CreatePin EEdGraphPinDirection.EGPD_Output PC_Boolean none
    FInteractMLExternalModelNodePinNames.IsTrainedOutputPinName
  nd.updatePin is_trained_pin (fun p =>
    { p with PinToolTip :=
        "Indicates whether the current model has been trained and capable of running." })

/-- The getter `UInteractMLExternalModelNode::GetDataPathInputPin`. -/
def GetDataPathInputPin (nd : UEdGraphNode) : Except Fault (Option Nat) :=
  nd.FindPinWithDirection FInteractMLExternalModelNodePinNames.DataPathInputPinName
    EEdGraphPinDirection.EGPD_Input

/-- The getter `UInteractMLExternalModelNode::GetModelTypeInputPin`. -/
def GetModelTypeInputPin (nd : UEdGraphNode) : Except Fault (Option Nat) :=
  nd.FindPinWithDirection FInteractMLExternalModelNodePinNames.ModelTypeInputPinName
    EEdGraphPinDirection.EGPD_Input

/-- The getter `UInteractMLExternalModelNode::GetModelOutputPin`. -/
def GetModelOutputPin (nd : UEdGraphNode) : Except Fault (Option Nat) :=
  nd.FindPinWithDirection FInteractMLExternalModelNodePinNames.ModelOutputPinName
    EEdGraphPinDirection.EGPD_Output

/-- The getter `UInteractMLExternalModelNode::GetIsTrainedOutputPin`. -/
def GetIsTrainedOutputPin (nd : UEdGraphNode) : Except Fault (Option Nat) :=
  nd.FindPinWithDirection FInteractMLExternalModelNodePinNames.IsTrainedOutputPinName
    EEdGraphPinDirection.EGPD_Output

/-- The method `UInteractMLExternalModelNode::FindModelAccessFunction`: the library
function named `GetModelFunctionName`. The name is checked against the library at
build time (`GET_FUNCTION_NAME_CHECKED`), so the lookup finds it. -/
def FindModelAccessFunction : UFunction :=
  UInteractMLBlueprintLibrary.GetModel

/-- The node `this` of `ExpandNode`: the node at position `self`; a position outside
the graph is no node. -/
def UEdGraph.node (g : UEdGraph) (self : Nat) : Except Fault UEdGraphNode :=
  match g.Nodes[self]? with
  | some nd => Except.ok nd
  | none => Except.error Fault.NullDereference

/-- The method `UInteractMLExternalModelNode::ExpandNode`, on the node at position
`self` of `SourceGraph`; the result is the graph after expansion, or the fault that
stops it. -/
def ExpandNode (Super : UInteractMLNode) (CompilerContext : FKismetCompilerContext)
    (SourceGraph : UEdGraph) (self : Nat) : Except Fault UEdGraph := do
  let g := Super.ExpandNode SourceGraph self
  let this ← g.node self
  -- generate node disambiguation/context
  let NodeID := this.NodeGuid.ToString EGuidFormats.Digits
  -- input pins : exec (execution triggered)
  let MainExecPin ← this.GetExecPin
  -- input pins : data
  let MainDataPathPin ← GetDataPathInputPin this
  let MainModelTypePin ← GetModelTypeInputPin this
  -- output pins : exec (execution continues)
  let MainThenPin := this.FindPin PN_Then
  -- output pins : data
  let MainModelOutputPin ← GetModelOutputPin this
  let MainIsTrainedOutputPin ← GetIsTrainedOutputPin this
  -- internal model access fn
  let AccessFn := FindModelAccessFunction
  let CallAccessFn := UK2Node_CallFunction AccessFn CompilerContext.NewGuid
  let call := g.Nodes.length
  let g := g.AddNode CallAccessFn
  -- access fn pins
  let AccessFnExecPin ← CallAccessFn.GetExecPin
  let AccessFnThenPin ← CallAccessFn.GetThenPin
  let AccessFnResultPin ← CallAccessFn.GetReturnValuePin
  let AccessFnActorPin ← CallAccessFn.FindPinChecked
    FInteractMLExternalModelNodeModelAccessFunctionPinNames.ActorPinName
  let AccessFnDataPathPin ← CallAccessFn.FindPinChecked
    FInteractMLExternalModelNodeModelAccessFunctionPinNames.DataPathPinName
  let AccessFnModelTypePin ← CallAccessFn.FindPinChecked
    FInteractMLExternalModelNodeModelAccessFunctionPinNames.ModelTypePinName
  let AccessFnNodeIDPin ← CallAccessFn.FindPinChecked
    FInteractMLExternalModelNodeModelAccessFunctionPinNames.NodeIDPinName
  let AccessFnIsTrainedPin ← CallAccessFn.FindPinChecked
    FInteractMLExternalModelNodeModelAccessFunctionPinNames.IsTrainedPinName
  -- chain functionality together
  let g := MovePinLinksToIntermediate g ⟨self, ← deref MainExecPin⟩
    ⟨call, ← deref AccessFnExecPin⟩
  let g := MovePinLinksToIntermediate g ⟨self, ← deref MainThenPin⟩
    ⟨call, ← deref AccessFnThenPin⟩
  -- hook up access fn pins
  let g := Super.ConnectContextActor g self ⟨call, AccessFnActorPin⟩
  let g := MovePinLinksToIntermediate g ⟨self, ← deref MainDataPathPin⟩
    ⟨call, AccessFnDataPathPin⟩
  let g := MovePinLinksToIntermediate g ⟨self, ← deref MainModelTypePin⟩
    ⟨call, AccessFnModelTypePin⟩
  let g := SetDefaultValue g ⟨call, AccessFnNodeIDPin⟩ NodeID
  let g := MovePinLinksToIntermediate g ⟨self, ← deref MainModelOutputPin⟩
    ⟨call, ← deref AccessFnResultPin⟩
  let g := MovePinLinksToIntermediate g ⟨self, ← deref MainIsTrainedOutputPin⟩
    ⟨call, AccessFnIsTrainedPin⟩
  -- after we are done we break all links to this node
  pure (BreakAllNodeLinks g self)

/-- The graph `ExpandNode` hands to `ConnectContextActor`: the base class has run, the
call node is spawned, and the links of the node's exec pin (at `MainExecPin`) and then
pin (at `MainThenPin`) have been moved to the call's pins 0 and 1. -/
def graphAtConnectContextActor (Super : UInteractMLNode)
    (CompilerContext : FKismetCompilerContext) (SourceGraph : UEdGraph) (self : Nat)
    (MainExecPin MainThenPin : Nat) : UEdGraph :=
  let g := Super.ExpandNode SourceGraph self
  let call := g.Nodes.length
  let g := g.AddNode (UK2Node_CallFunction FindModelAccessFunction CompilerContext.NewGuid)
  let g := MovePinLinksToIntermediate g ⟨self, MainExecPin⟩ ⟨call, 0⟩
  MovePinLinksToIntermediate g ⟨self, MainThenPin⟩ ⟨call, 1⟩

/-- Whether a node header is that of a call of `UInteractMLBlueprintLibrary::GetModel`:
a call-function node whose function reference names the function `GetModel` of the
class `UInteractMLBlueprintLibrary`. -/
def isGetModelCall (h : String × Option UFunction × FGuid) : Bool :=
  match h.2.1 with
  | some f =>
    decide (h.1 = "K2Node_CallFunction")
      && decide (f.OwnerClass = "UInteractMLBlueprintLibrary")
      && f.Name.same ⟨"GetModel"⟩
  | none => false

/-- What `ExpandNode` needs `ConnectContextActor` to leave alone, between the graph
`before` the call and the graph `after` it: the pins whose pointers are listed in
`kept`, the headers of the nodes there were, and the number of calls of the model
access function (the nodes it adds are of other kinds). -/
def ConnectContextActorKeeps (before after : UEdGraph) (kept : List PinPtr) : Prop :=
  (∀ q ∈ kept, after.pin? q = before.pin? q)
    ∧ after.headers.take before.Nodes.length = before.headers
    ∧ ∀ h ∈ after.headers.drop before.Nodes.length, isGetModelCall h = false

instance (before after : UEdGraph) (kept : List PinPtr) :
    Decidable (ConnectContextActorKeeps before after kept) := by
  unfold ConnectContextActorKeeps; infer_instance

/-- The number of pins of the node at position `n`, none if there is no such node. -/
def UEdGraph.pinCount (g : UEdGraph) (n : Nat) : Nat :=
  ((g.Nodes[n]?).map (fun nd => nd.Pins.length)).getD 0

/-- Links to the node at position `self` are mutual, as the engine keeps them: a pin of
another node that is linked to a pin of the node is among the links of that pin. -/
def LinksToNodeAreMutual (g : UEdGraph) (self : Nat) : Prop :=
  ∀ n < g.Nodes.length, n ≠ self → ∀ i < g.pinCount n, ∀ x ∈ g.linksOf ⟨n, i⟩,
    x.Node = self → (⟨n, i⟩ : PinPtr) ∈ g.linksOf x

instance (g : UEdGraph) (self : Nat) : Decidable (LinksToNodeAreMutual g self) := by
  unfold LinksToNodeAreMutual; infer_instance

/-! ## Sample data used by the examples -/

/-- A base class for the examples: `AllocateDefaultPins` creates the `execute`, `then`
and `Actor` pins, `ExpandNode` does nothing, and `ConnectContextActor` spawns a `Self`
node and links its output to the function's actor pin. -/
def sampleSuper : UInteractMLNode :=
  { AllocateDefaultPins := fun nd =>
      let nd := (nd.CreatePin EEdGraphPinDirection.EGPD_Input PC_Exec none PN_Execute).1
      let nd := (nd.CreatePin EEdGraphPinDirection.EGPD_Output PC_Exec none PN_Then).1
      (nd.CreatePin EEdGraphPinDirection.EGPD_Input PC_Object (some "AActor") ⟨"Actor"⟩).1
    ExpandNode := fun g _ => g
    ConnectContextActor := fun g _ FunctionActorPin =>
      let selfNode := g.Nodes.length
      let g := g.AddNode
        { NodeClass := "K2Node_Self", FunctionReference := none, NodeGuid := ⟨0, 0, 0, 9⟩
          Pins := [ { PinName := PN_Self, Direction := EEdGraphPinDirection.EGPD_Output,
                      PinCategory := PC_Object, PinSubCategoryObject := none,
                      PinToolTip := "", DefaultValue := "",
                      LinkedTo := [FunctionActorPin] } ] }
      g.mapPins (fun q p =>
        if q = FunctionActorPin then { p with LinkedTo := p.LinkedTo ++ [⟨selfNode, 0⟩] }
        else p) }

/-- The node of the examples once its pins are allocated and linked: `execute` (0) to
pin 0 of node 0, `then` (1) to pin 0 of node 2, "Data Path" (3) to pin 1 of node 0,
"Model" (5) to pin 1 of node 2. -/
def sampleNode : UEdGraphNode :=
  let nd := AllocateDefaultPins sampleSuper "Classification"
    { NodeClass := "InteractMLExternalModelNode", FunctionReference := none
      NodeGuid := ⟨1, 2, 3, 2748⟩, Pins := [] }
  let nd := nd.updatePin 0 (fun p => { p with LinkedTo := [⟨0, 0⟩] })
  let nd := nd.updatePin 1 (fun p => { p with LinkedTo := [⟨2, 0⟩] })
  let nd := nd.updatePin 3 (fun p => { p with LinkedTo := [⟨0, 1⟩] })
  nd.updatePin 5 (fun p => { p with LinkedTo := [⟨2, 1⟩] })

/-- A graph of three nodes for the examples: an upstream node (0) feeding the exec and
"Data Path" pins of the external-model node (1), whose `then` and "Model" pins feed a
downstream node (2). -/
def sampleGraph : UEdGraph :=
  { Nodes :=
      [ { NodeClass := "K2Node_Event", FunctionReference := none, NodeGuid := ⟨0, 0, 0, 1⟩
          Pins := [ { PinName := PN_Then, Direction := EEdGraphPinDirection.EGPD_Output,
                      PinCategory := PC_Exec, PinSubCategoryObject := none,
                      PinToolTip := "", DefaultValue := "", LinkedTo := [⟨1, 0⟩] },
                    { PinName := ⟨"Path"⟩, Direction := EEdGraphPinDirection.EGPD_Output,
                      PinCategory := PC_String, PinSubCategoryObject := none,
                      PinToolTip := "", DefaultValue := "", LinkedTo := [⟨1, 3⟩] } ] },
        sampleNode,
        { NodeClass := "K2Node_Other", FunctionReference := none, NodeGuid := ⟨0, 0, 0, 2⟩
          Pins := [ { PinName := PN_Execute, Direction := EEdGraphPinDirection.EGPD_Input,
                      PinCategory := PC_Exec, PinSubCategoryObject := none,
                      PinToolTip := "", DefaultValue := "", LinkedTo := [⟨1, 1⟩] },
                    { PinName := ⟨"Model"⟩, Direction := EEdGraphPinDirection.EGPD_Input,
                      PinCategory := PC_Object, PinSubCategoryObject := none,
                      PinToolTip := "", DefaultValue := "", LinkedTo := [⟨1, 5⟩] } ] } ] }

/-! ## Properties -/

/-- C1: for every model reference `m` and kind `k`, the task built by the constructor
has `Type = k`, `Model = m`, and `Examples`, `Inputs`, `InputSeries` and `Outputs` all
empty, whatever the uninitialised members hold. -/
theorem ctor_fields (m : Option ModelPtr) (k : EInteractMLTaskType)
    (c : Option ModelStatePtr) (b : Bool) :
    (FInteractMLTask.ctor m k c b).TaskType = k
      ∧ (FInteractMLTask.ctor m k c b).Model = m
      ∧ (FInteractMLTask.ctor m k c b).Examples = []
      ∧ (FInteractMLTask.ctor m k c b).Inputs = []
      ∧ (FInteractMLTask.ctor m k c b).InputSeries = []
      ∧ (FInteractMLTask.ctor m k c b).Outputs = [] :=
  ⟨rfl, rfl, rfl, rfl, rfl, rfl⟩

/-- C2 (as stated, refuted): a freshly constructed `Train` task does not satisfy the
input invariant, since none of its three input members is populated. -/
theorem fresh_task_breaks_invariant :
    ¬ (FInteractMLTask.ctor (some 1) EInteractMLTaskType.Train none false).InputInvariant := by
  decide

/-- C2 (amended): a freshly constructed task has none of the three input members
populated, for every model and kind; and assigning a non-empty value to the one
member matching the kind of a fresh `Train` or `Run` task (`Examples` for `Train`,
`Inputs` or `InputSeries` for `Run`) gives a task satisfying the input invariant. -/
theorem invariant_after_population (m : Option ModelPtr) (c : Option ModelStatePtr) (b : Bool)
    (ex : List trainingExampleFloat) (inp : List float) (ser : List (List float))
    (hex : ex ≠ []) (hinp : inp ≠ []) (hser : ser ≠ []) :
    (∀ k, (FInteractMLTask.ctor m k c b).populatedCount = 0)
      ∧ ({ FInteractMLTask.ctor m EInteractMLTaskType.Train c b with
            Examples := ex }).InputInvariant
      ∧ ({ FInteractMLTask.ctor m EInteractMLTaskType.Run c b with
            Inputs := inp }).InputInvariant
      ∧ ({ FInteractMLTask.ctor m EInteractMLTaskType.Run c b with
            InputSeries := ser }).InputInvariant := by
  refine ⟨fun k => rfl, ?_, ?_, ?_⟩ <;>
    simp [FInteractMLTask.InputInvariant, FInteractMLTask.populatedCount,
      FInteractMLTask.ctor, hex, hinp, hser]

/-- Witness for C2 (amended), with one example, one input vector and a series of one. -/
theorem invariant_after_population_witness :
    ({ FInteractMLTask.ctor (some 1) EInteractMLTaskType.Train none false with
          Examples := [⟨[1, 2], [3]⟩] }).InputInvariant
      ∧ ({ FInteractMLTask.ctor (some 1) EInteractMLTaskType.Run none false with
            InputSeries := [[1, 2]] }).InputInvariant :=
  let h := invariant_after_population (some 1) none false [⟨[1, 2], [3]⟩] [1, 2] [[1, 2]]
    (by decide) (by decide) (by decide)
  ⟨h.2.1, h.2.2.2⟩

/-- C3 (as stated, refuted): constructing a task with a null model does not report
`InvalidArgument`. -/
theorem Construct_null_not_error :
    FInteractMLTask.Construct none EInteractMLTaskType.Train none false
      ≠ Except.error ErrorKind.InvalidArgument := by
  intro h
  cases h

/-- C3 (amended): construction never fails; with a null model and any kind `k` it
yields a task whose `Model` is null and whose `Type` is `k`. -/
theorem Construct_null_ok (k : EInteractMLTaskType) (c : Option ModelStatePtr) (b : Bool) :
    ∃ t, FInteractMLTask.Construct none k c b = Except.ok t
      ∧ t.Model = none ∧ t.TaskType = k :=
  ⟨FInteractMLTask.ctor none k c b, rfl, rfl, rfl⟩

/-! ### `Run()` -/

/-- On an untrained model every `Predict` fails with `ModelNotTrained`. -/
theorem Predict_untrained (m : UInteractMLModel) (x : List float) (s : FInteractMLModelState)
    (hm : m.IsTrained = false) :
    m.Predict x s = Except.error PredictError.ModelNotTrained := by
  simp [UInteractMLModel.Predict, hm]

/-- On a trained model an input of the configured width is evaluated. -/
theorem Predict_trained (m : UInteractMLModel) (x : List float) (s : FInteractMLModelState)
    (hm : m.IsTrained = true) (hx : x.length = m.Arity) :
    m.Predict x s = Except.ok (m.Evaluate s x) := by
  simp [UInteractMLModel.Predict, hm, hx]

/-- A `Predict` that succeeds returns what the model's mapping computes. -/
theorem Predict_ok_inv (m : UInteractMLModel) (x : List float) (s : FInteractMLModelState)
    (r : List float × FInteractMLModelState) (h : m.Predict x s = Except.ok r) :
    x.length = m.Arity ∧ r = m.Evaluate s x := by
  unfold UInteractMLModel.Predict at h
  by_cases h1 : m.IsTrained = false
  · simp [h1] at h
  · by_cases h2 : x.length ≠ m.Arity
    · simp [h1, h2] at h
    · simp only [h1, h2, if_false] at h
      exact ⟨not_not.mp h2, (Except.ok.inj h).symm⟩

/-- Series sampling of a non-empty series on an untrained model fails. -/
theorem PredictSeries_untrained (m : UInteractMLModel) (xs : List (List float))
    (s : FInteractMLModelState) (hm : m.IsTrained = false) (hxs : xs ≠ []) :
    m.PredictSeries xs s = Except.error PredictError.ModelNotTrained := by
  cases xs with
  | nil => exact absurd rfl hxs
  | cons x rest => simp [UInteractMLModel.PredictSeries, Predict_untrained m x s hm]

/-- Series sampling on a trained model, all inputs of the configured width, succeeds
with one output vector per input. -/
theorem PredictSeries_trained (m : UInteractMLModel) (hm : m.IsTrained = true)
    (xs : List (List float)) (hxs : ∀ x ∈ xs, x.length = m.Arity)
    (s : FInteractMLModelState) :
    ∃ outs s1, m.PredictSeries xs s = Except.ok (outs, s1) ∧ outs.length = xs.length := by
  induction xs generalizing s with
  | nil => exact ⟨[], s, rfl, rfl⟩
  | cons x rest ih =>
    have hx : x.length = m.Arity := hxs x (List.mem_cons_self x rest)
    obtain ⟨outs, s1, hrest, hlen⟩ :=
      ih (fun y hy => hxs y (List.mem_cons_of_mem x hy)) (m.Evaluate s x).2
    refine ⟨(m.Evaluate s x).1 :: outs, s1, ?_, by simp [hlen]⟩
    simp [UInteractMLModel.PredictSeries, Predict_trained m x s hm hx, hrest]

/-- Series sampling that succeeds has produced one output vector per input, each one
a value of the model's mapping on an input of the configured width. -/
theorem PredictSeries_ok_inv (m : UInteractMLModel) (xs : List (List float))
    (s : FInteractMLModelState) (outs : List (List float)) (s1 : FInteractMLModelState)
    (h : m.PredictSeries xs s = Except.ok (outs, s1)) :
    outs.length = xs.length
      ∧ ∀ o ∈ outs, ∃ s0 x, x.length = m.Arity ∧ o = (m.Evaluate s0 x).1 := by
  induction xs generalizing s outs with
  | nil =>
    simp only [UInteractMLModel.PredictSeries] at h
    obtain ⟨rfl, -⟩ := Prod.mk.inj (Except.ok.inj h)
    simp
  | cons x rest ih =>
    simp only [UInteractMLModel.PredictSeries] at h
    cases hp : m.Predict x s with
    | error e => simp [hp] at h
    | ok r =>
      obtain ⟨out, st⟩ := r
      simp only [hp] at h
      cases hr : m.PredictSeries rest st with
      | error e => simp [hr] at h
      | ok r2 =>
        obtain ⟨outs2, st2⟩ := r2
        simp only [hr] at h
        obtain ⟨rfl, rfl⟩ := Prod.mk.inj (Except.ok.inj h)
        obtain ⟨hlen, hall⟩ := ih st outs2 hr
        obtain ⟨hx, hout⟩ := Predict_ok_inv m x s (out, st) hp
        refine ⟨by simp [hlen], ?_⟩
        intro o ho
        rcases List.mem_cons.mp ho with rfl | ho
        · exact ⟨s, x, hx, congrArg Prod.fst hout⟩
        · exact hall o ho

/-- A non-empty list of non-empty vectors, laid back to back, is non-empty. -/
theorem flatten_ne_nil_of_forall_ne_nil (outs : List (List float)) (hlen : outs ≠ [])
    (hne : ∀ o ∈ outs, o ≠ []) : outs.flatten ≠ [] := by
  cases outs with
  | nil => exact absurd rfl hlen
  | cons o rest =>
    have ho : o ≠ [] := hne o (List.mem_cons_self o rest)
    cases o with
    | nil => exact absurd rfl ho
    | cons a o1 => simp

/-- Vectors of width one laid back to back give as many values as there are vectors. -/
theorem length_flatten_of_width_one (outs : List (List float))
    (h : ∀ o ∈ outs, o.length = 1) : outs.flatten.length = outs.length := by
  induction outs with
  | nil => rfl
  | cons o rest ih =>
    have h1 : o.length = 1 := h o (List.mem_cons_self o rest)
    have h2 := ih (fun y hy => h y (List.mem_cons_of_mem o hy))
    simp [h1, h2, Nat.add_comm]

/-- C10: `GetNodeTitle` is defined on every title type value: `FullTitle` gives
"Model", a newline and "External model data file"; `EditableTitle` gives the empty
text; every other value (among them `MenuTitle` and `ListView`) gives
"Model (External)"; so the title is empty exactly for `EditableTitle`. -/
theorem GetNodeTitle_cases (tt : ENodeTitleType) :
    GetNodeTitle tt =
        (if tt = ENodeTitleType.FullTitle then "Model\nExternal model data file"
         else if tt = ENodeTitleType.EditableTitle then ""
         else "Model (External)")
      ∧ GetNodeTitle ENodeTitleType.MenuTitle = "Model (External)"
      ∧ GetNodeTitle ENodeTitleType.ListView = "Model (External)"
      ∧ GetNodeTitle ENodeTitleType.MAX_TitleTypes = "Model (External)"
      ∧ (GetNodeTitle tt = "" ↔ tt = ENodeTitleType.EditableTitle) := by
  have hfull : ("Model" ++ "\n") ++ "External model data file"
      = "Model\nExternal model data file" := by decide
  have hmenu : (("Model" ++ " (") ++ "External") ++ ")" = "Model (External)" := by decide
  have hne1 : "Model\nExternal model data file" ≠ "" := by decide
  have hne2 : "Model (External)" ≠ "" := by decide
  have h02 : ENodeTitleType.FullTitle ≠ ENodeTitleType.EditableTitle := by decide
  refine ⟨?_, by decide, by decide, by decide, ?_⟩
  · unfold GetNodeTitle
    simp only [hfull, hmenu]
  · unfold GetNodeTitle
    simp only [hfull, hmenu]
    by_cases h1 : tt = ENodeTitleType.FullTitle
    · subst h1
      simp [hne1, h02]
    · by_cases h2 : tt = ENodeTitleType.EditableTitle
      · subst h2
        simp [h02.symm]
      · simp [h1, h2, hne2]
/-! ### Graph lemmas -/

theorem pin?_mapPins (f : PinPtr → UEdGraphPin → UEdGraphPin) (g : UEdGraph) (q : PinPtr) :
    (g.mapPins f).pin? q = (g.pin? q).map (f q) := by
  unfold UEdGraph.pin? UEdGraph.mapPins
  simp only [List.getElem?_mapIdx]
  cases g.Nodes[q.Node]? with
  | none => rfl
  | some nd => simp [List.getElem?_mapIdx]

theorem headers_mapPins (f : PinPtr → UEdGraphPin → UEdGraphPin) (g : UEdGraph) :
    (g.mapPins f).headers = g.headers := by
  unfold UEdGraph.headers UEdGraph.mapPins
  apply List.ext_getElem?
  intro n
  simp only [List.getElem?_map, List.getElem?_mapIdx]
  cases g.Nodes[n]? <;> rfl

theorem length_mapPins (f : PinPtr → UEdGraphPin → UEdGraphPin) (g : UEdGraph) :
    (g.mapPins f).Nodes.length = g.Nodes.length := by
  simp [UEdGraph.mapPins]

theorem pins_length_mapPins (f : PinPtr → UEdGraphPin → UEdGraphPin) (g : UEdGraph) (n : Nat) :
    ((g.mapPins f).Nodes[n]?).map (fun nd => nd.Pins.length)
      = (g.Nodes[n]?).map (fun nd => nd.Pins.length) := by
  unfold UEdGraph.mapPins
  simp only [List.getElem?_mapIdx]
  cases g.Nodes[n]? <;> simp

theorem pin?_AddNode_of_lt (g : UEdGraph) (nd : UEdGraphNode) (q : PinPtr)
    (h : q.Node < g.Nodes.length) : (g.AddNode nd).pin? q = g.pin? q := by
  unfold UEdGraph.pin? UEdGraph.AddNode
  simp [List.getElem?_append_left h]

theorem pin?_AddNode_new (g : UEdGraph) (nd : UEdGraphNode) (i : Nat) :
    (g.AddNode nd).pin? ⟨g.Nodes.length, i⟩ = nd.Pins[i]? := by
  unfold UEdGraph.pin? UEdGraph.AddNode
  simp

theorem headers_AddNode (g : UEdGraph) (nd : UEdGraphNode) :
    (g.AddNode nd).headers = g.headers ++ [nd.header] := by
  simp [UEdGraph.headers, UEdGraph.AddNode]

theorem Move_eq (g : UEdGraph) (S I : PinPtr) (src : UEdGraphPin) (h : g.pin? S = some src) :
    MovePinLinksToIntermediate g S I = g.mapPins (moveLinks src S I) := by
  simp [MovePinLinksToIntermediate, h]

theorem pin?_Move (g : UEdGraph) (S I : PinPtr) (src : UEdGraphPin) (h : g.pin? S = some src)
    (q : PinPtr) :
    (MovePinLinksToIntermediate g S I).pin? q = (g.pin? q).map (moveLinks src S I q) := by
  rw [Move_eq g S I src h, pin?_mapPins]

theorem headers_Move (g : UEdGraph) (S I : PinPtr) :
    (MovePinLinksToIntermediate g S I).headers = g.headers := by
  unfold MovePinLinksToIntermediate
  cases g.pin? S with
  | none => rfl
  | some src => exact headers_mapPins _ g

theorem FindPinIdx_some (name : FName) (pins : List UEdGraphPin) (i : Nat)
    (h : FindPinIdx name pins = some i) :
    ∃ p, pins[i]? = some p ∧ p.PinName.same name = true := by
  induction pins generalizing i with
  | nil => simp [FindPinIdx] at h
  | cons p rest ih =>
    unfold FindPinIdx at h
    by_cases hp : p.PinName.same name = true
    · simp only [hp, if_true] at h
      obtain rfl := Option.some.inj h
      exact ⟨p, by simp, hp⟩
    · simp only [hp] at h
      cases hr : FindPinIdx name rest with
      | none => simp [hr] at h
      | some j =>
        simp only [hr, Option.map_some'] at h
        obtain rfl := Option.some.inj h
        obtain ⟨p', hp', hs⟩ := ih j hr
        exact ⟨p', by simpa using hp', hs⟩

theorem FindPinIdx_append_of_none (name : FName) (l r : List UEdGraphPin)
    (h : ∀ p ∈ l, p.PinName.same name = false) :
    FindPinIdx name (l ++ r) = (FindPinIdx name r).map (fun i => l.length + i) := by
  induction l with
  | nil => simp
  | cons p rest ih =>
    have hp : p.PinName.same name = false := h p (List.mem_cons_self p rest)
    have hr := ih (fun x hx => h x (List.mem_cons_of_mem p hx))
    have hstep : FindPinIdx name (p :: (rest ++ r))
        = (FindPinIdx name (rest ++ r)).map (fun i => i + 1) := by
      simp [FindPinIdx, hp]
    rw [List.cons_append, hstep, hr]
    cases FindPinIdx name r with
    | none => rfl
    | some j =>
      simp only [Option.map_some', List.length_cons]
      exact congrArg some (by omega)

theorem modifyAt_length_append (f : UEdGraphPin → UEdGraphPin) (l : List UEdGraphPin)
    (a : UEdGraphPin) (r : List UEdGraphPin) :
    modifyAt f l.length (l ++ a :: r) = l ++ f a :: r := by
  induction l with
  | nil => rfl
  | cons x rest ih => simp [modifyAt, ih]

/-- The pins of the node after `AllocateDefaultPins`: those the base class left,
followed by "Data Path", "Model Type", "Model" and "Trained?". -/
theorem AllocateDefaultPins_Pins (Super : UInteractMLNode) (d : String) (nd : UEdGraphNode) :
    (AllocateDefaultPins Super d nd).Pins = (Super.AllocateDefaultPins nd).Pins ++
      [ { PinName := FInteractMLExternalModelNodePinNames.DataPathInputPinName,
          Direction := EEdGraphPinDirection.EGPD_Input, PinCategory := PC_String,
          PinSubCategoryObject := none,
          PinToolTip := "Path (optional) and Name to load/save training set data.",
          DefaultValue := "", LinkedTo := [] },
        { PinName := FInteractMLExternalModelNodePinNames.ModelTypeInputPinName,
          Direction := EEdGraphPinDirection.EGPD_Input, PinCategory := PC_Byte,
          PinSubCategoryObject := some "EInteractMLModelType",
          PinToolTip := "The type of the model being referred to by the data path.",
          DefaultValue := d, LinkedTo := [] },
        { PinName := FInteractMLExternalModelNodePinNames.ModelOutputPinName,
          Direction := EEdGraphPinDirection.EGPD_Output, PinCategory := PC_Object,
          PinSubCategoryObject := some "UInteractMLModel",
          PinToolTip := "Machine learning model.",
          DefaultValue := "", LinkedTo := [] },
        { PinName := FInteractMLExternalModelNodePinNames.IsTrainedOutputPinName,
          Direction := EEdGraphPinDirection.EGPD_Output, PinCategory := PC_Boolean,
          PinSubCategoryObject := none,
          PinToolTip :=
            "Indicates whether the current model has been trained and capable of running.",
          DefaultValue := "", LinkedTo := [] } ] := by
  simp only [AllocateDefaultPins, UEdGraphNode.CreatePin, UEdGraphNode.updatePin]
  have e1 : ∀ (l : List UEdGraphPin) (a : UEdGraphPin) (f : UEdGraphPin → UEdGraphPin),
      modifyAt f l.length (l ++ [a]) = l ++ [f a] := fun l a f =>
    modifyAt_length_append f l a []
  simp only [e1]
  simp only [List.append_assoc, List.singleton_append, List.cons_append, List.nil_append]

/-! ### The call node's pins -/

theorem call_GetExecPin (guid : FGuid) :
    (UK2Node_CallFunction FindModelAccessFunction guid).GetExecPin = Except.ok (some 0) := rfl

theorem call_GetThenPin (guid : FGuid) :
    (UK2Node_CallFunction FindModelAccessFunction guid).GetThenPin = Except.ok (some 1) := rfl

theorem call_GetReturnValuePin (guid : FGuid) :
    (UK2Node_CallFunction FindModelAccessFunction guid).GetReturnValuePin
      = Except.ok (some 8) := rfl

theorem call_ActorPin (guid : FGuid) :
    (UK2Node_CallFunction FindModelAccessFunction guid).FindPinChecked
      FInteractMLExternalModelNodeModelAccessFunctionPinNames.ActorPinName
      = Except.ok 3 := rfl

theorem call_DataPathPin (guid : FGuid) :
    (UK2Node_CallFunction FindModelAccessFunction guid).FindPinChecked
      FInteractMLExternalModelNodeModelAccessFunctionPinNames.DataPathPinName
      = Except.ok 4 := rfl

theorem call_ModelTypePin (guid : FGuid) :
    (UK2Node_CallFunction FindModelAccessFunction guid).FindPinChecked
      FInteractMLExternalModelNodeModelAccessFunctionPinNames.ModelTypePinName
      = Except.ok 5 := rfl

theorem call_NodeIDPin (guid : FGuid) :
    (UK2Node_CallFunction FindModelAccessFunction guid).FindPinChecked
      FInteractMLExternalModelNodeModelAccessFunctionPinNames.NodeIDPinName
      = Except.ok 6 := rfl

theorem call_IsTrainedPin (guid : FGuid) :
    (UK2Node_CallFunction FindModelAccessFunction guid).FindPinChecked
      FInteractMLExternalModelNodeModelAccessFunctionPinNames.IsTrainedPinName
      = Except.ok 7 := rfl

/-- C9: after `AllocateDefaultPins`, if no pin the base class left on the node is named
"Data Path", "Model Type", "Model" or "Trained?", each of the four pin getters passes
its `check` and returns a pin that exists: `GetDataPathInputPin` and
`GetModelTypeInputPin` an input pin, `GetModelOutputPin` and `GetIsTrainedOutputPin` an
output pin; being non-null, these pins are dereferenced safely by `ExpandNode`. -/
theorem getters_after_AllocateDefaultPins (Super : UInteractMLNode) (d : String)
    (nd : UEdGraphNode)
    (hbase : ∀ p ∈ (Super.AllocateDefaultPins nd).Pins,
      p.PinName.same FInteractMLExternalModelNodePinNames.DataPathInputPinName = false
        ∧ p.PinName.same FInteractMLExternalModelNodePinNames.ModelTypeInputPinName = false
        ∧ p.PinName.same FInteractMLExternalModelNodePinNames.ModelOutputPinName = false
        ∧ p.PinName.same FInteractMLExternalModelNodePinNames.IsTrainedOutputPinName = false) :
    ∃ data type model trained : Nat,
      GetDataPathInputPin (AllocateDefaultPins Super d nd) = Except.ok (some data)
        ∧ GetModelTypeInputPin (AllocateDefaultPins Super d nd) = Except.ok (some type)
        ∧ GetModelOutputPin (AllocateDefaultPins Super d nd) = Except.ok (some model)
        ∧ GetIsTrainedOutputPin (AllocateDefaultPins Super d nd) = Except.ok (some trained)
        ∧ ((AllocateDefaultPins Super d nd).Pins[data]?).map (fun p => p.Direction)
            = some EEdGraphPinDirection.EGPD_Input
        ∧ ((AllocateDefaultPins Super d nd).Pins[type]?).map (fun p => p.Direction)
            = some EEdGraphPinDirection.EGPD_Input
        ∧ ((AllocateDefaultPins Super d nd).Pins[model]?).map (fun p => p.Direction)
            = some EEdGraphPinDirection.EGPD_Output
        ∧ ((AllocateDefaultPins Super d nd).Pins[trained]?).map (fun p => p.Direction)
            = some EEdGraphPinDirection.EGPD_Output
        ∧ deref (some data) = Except.ok data ∧ deref (some type) = Except.ok type
        ∧ deref (some model) = Except.ok model ∧ deref (some trained) = Except.ok trained := by
  have hpins := AllocateDefaultPins_Pins Super d nd
  have h1 := FindPinIdx_append_of_none
    FInteractMLExternalModelNodePinNames.DataPathInputPinName _ 
    (((AllocateDefaultPins Super d nd).Pins).drop (Super.AllocateDefaultPins nd).Pins.length)
    (fun p hp => (hbase p hp).1)
  have h2 := FindPinIdx_append_of_none
    FInteractMLExternalModelNodePinNames.ModelTypeInputPinName _
    (((AllocateDefaultPins Super d nd).Pins).drop (Super.AllocateDefaultPins nd).Pins.length)
    (fun p hp => (hbase p hp).2.1)
  have h3 := FindPinIdx_append_of_none
    FInteractMLExternalModelNodePinNames.ModelOutputPinName _
    (((AllocateDefaultPins Super d nd).Pins).drop (Super.AllocateDefaultPins nd).Pins.length)
    (fun p hp => (hbase p hp).2.2.1)
  have h4 := FindPinIdx_append_of_none
    FInteractMLExternalModelNodePinNames.IsTrainedOutputPinName _
    (((AllocateDefaultPins Super d nd).Pins).drop (Super.AllocateDefaultPins nd).Pins.length)
    (fun p hp => (hbase p hp).2.2.2)
  rw [hpins] at h1 h2 h3 h4
  simp only [List.drop_left] at h1 h2 h3 h4
  have e1 : FindPinIdx FInteractMLExternalModelNodePinNames.DataPathInputPinName
      (AllocateDefaultPins Super d nd).Pins = some ((Super.AllocateDefaultPins nd).Pins.length + 0) := by
    rw [hpins, h1]; rfl
  have e2 : FindPinIdx FInteractMLExternalModelNodePinNames.ModelTypeInputPinName
      (AllocateDefaultPins Super d nd).Pins = some ((Super.AllocateDefaultPins nd).Pins.length + 1) := by
    rw [hpins, h2]; rfl
  have e3 : FindPinIdx FInteractMLExternalModelNodePinNames.ModelOutputPinName
      (AllocateDefaultPins Super d nd).Pins = some ((Super.AllocateDefaultPins nd).Pins.length + 2) := by
    rw [hpins, h3]; rfl
  have e4 : FindPinIdx FInteractMLExternalModelNodePinNames.IsTrainedOutputPinName
      (AllocateDefaultPins Super d nd).Pins = some ((Super.AllocateDefaultPins nd).Pins.length + 3) := by
    rw [hpins, h4]; rfl
  have g1 : ((AllocateDefaultPins Super d nd).Pins[(Super.AllocateDefaultPins nd).Pins.length + 0]?).map
      (fun p => p.Direction) = some EEdGraphPinDirection.EGPD_Input := by
    rw [hpins, List.getElem?_append_right (Nat.le_add_right _ _)]
    simp
  have g2 : ((AllocateDefaultPins Super d nd).Pins[(Super.AllocateDefaultPins nd).Pins.length + 1]?).map
      (fun p => p.Direction) = some EEdGraphPinDirection.EGPD_Input := by
    rw [hpins, List.getElem?_append_right (Nat.le_add_right _ _)]
    simp
  have g3 : ((AllocateDefaultPins Super d nd).Pins[(Super.AllocateDefaultPins nd).Pins.length + 2]?).map
      (fun p => p.Direction) = some EEdGraphPinDirection.EGPD_Output := by
    rw [hpins, List.getElem?_append_right (Nat.le_add_right _ _)]
    simp
  have g4 : ((AllocateDefaultPins Super d nd).Pins[(Super.AllocateDefaultPins nd).Pins.length + 3]?).map
      (fun p => p.Direction) = some EEdGraphPinDirection.EGPD_Output := by
    rw [hpins, List.getElem?_append_right (Nat.le_add_right _ _)]
    simp
  refine ⟨_, _, _, _, ?_, ?_, ?_, ?_, g1, g2, g3, g4, rfl, rfl, rfl, rfl⟩
  · simp only [GetDataPathInputPin, UEdGraphNode.FindPinWithDirection, UEdGraphNode.FindPin, e1, g1,
      if_true]
  · simp only [GetModelTypeInputPin, UEdGraphNode.FindPinWithDirection, UEdGraphNode.FindPin, e2, g2,
      if_true]
  · simp only [GetModelOutputPin, UEdGraphNode.FindPinWithDirection, UEdGraphNode.FindPin, e3, g3,
      if_true]
  · simp only [GetIsTrainedOutputPin, UEdGraphNode.FindPinWithDirection, UEdGraphNode.FindPin, e4,
      g4, if_true]

/-! ### Expansion -/

/-- The graph `ExpandNode` builds from the one `ConnectContextActor` returns: the data
pins' links are moved, the `NodeID` default is set, and the node's links are broken. -/
theorem ExpandNode_eq (Super : UInteractMLNode) (ctx : FKismetCompilerContext)
    (g : UEdGraph) (self : Nat) (nd : UEdGraphNode) (ie it id im io itr : Nat)
    (hnode : (Super.ExpandNode g self).Nodes[self]? = some nd)
    (hexec : nd.GetExecPin = Except.ok (some ie))
    (hthen : nd.FindPin PN_Then = some it)
    (hdata : GetDataPathInputPin nd = Except.ok (some id))
    (htype : GetModelTypeInputPin nd = Except.ok (some im))
    (hmodel : GetModelOutputPin nd = Except.ok (some io))
    (htrained : GetIsTrainedOutputPin nd = Except.ok (some itr)) :
    ExpandNode Super ctx g self = Except.ok
      (BreakAllNodeLinks
        (MovePinLinksToIntermediate
          (MovePinLinksToIntermediate
            (SetDefaultValue
              (MovePinLinksToIntermediate
                (MovePinLinksToIntermediate
                  (Super.ConnectContextActor
                    (graphAtConnectContextActor Super ctx g self ie it) self
                    ⟨(Super.ExpandNode g self).Nodes.length, 3⟩)
                  ⟨self, id⟩ ⟨(Super.ExpandNode g self).Nodes.length, 4⟩)
                ⟨self, im⟩ ⟨(Super.ExpandNode g self).Nodes.length, 5⟩)
              ⟨(Super.ExpandNode g self).Nodes.length, 6⟩
              (nd.NodeGuid.ToString EGuidFormats.Digits))
            ⟨self, io⟩ ⟨(Super.ExpandNode g self).Nodes.length, 8⟩)
          ⟨self, itr⟩ ⟨(Super.ExpandNode g self).Nodes.length, 7⟩)
        self) := by
  simp only [ExpandNode, UEdGraph.node, hnode, hexec, hthen, hdata, htype, hmodel, htrained,
    call_GetExecPin, call_GetThenPin, call_GetReturnValuePin, call_ActorPin, call_DataPathPin,
    call_ModelTypePin, call_NodeIDPin, call_IsTrainedPin, deref, graphAtConnectContextActor,
    bind, Except.bind, pure, Except.pure]

theorem moveLinks_other (src : UEdGraphPin) (S I q : PinPtr) (p : UEdGraphPin)
    (h1 : q ≠ S) (h2 : q ≠ I) (h3 : q ∉ src.LinkedTo) : moveLinks src S I q p = p := by
  simp [moveLinks, h1, h2, h3]

theorem moveLinks_dst (src : UEdGraphPin) (S I : PinPtr) (p : UEdGraphPin)
    (h1 : I ≠ S) (h2 : p.LinkedTo = []) :
    moveLinks src S I I p
      = { p with LinkedTo := src.LinkedTo, DefaultValue := src.DefaultValue } := by
  simp [moveLinks, h1, h2]

theorem moveLinks_src (src : UEdGraphPin) (S I : PinPtr) (p : UEdGraphPin) :
    moveLinks src S I S p = { p with LinkedTo := [] } := by
  simp [moveLinks]

theorem pin?_Move_other (g : UEdGraph) (S I q : PinPtr) (src : UEdGraphPin)
    (hs : g.pin? S = some src) (h1 : q ≠ S) (h2 : q ≠ I) (h3 : q ∉ src.LinkedTo) :
    (MovePinLinksToIntermediate g S I).pin? q = g.pin? q := by
  rw [pin?_Move g S I src hs]
  cases g.pin? q with
  | none => rfl
  | some p => simp [moveLinks_other src S I q p h1 h2 h3]

theorem pin?_Move_dst (g : UEdGraph) (S I : PinPtr) (src d : UEdGraphPin)
    (hs : g.pin? S = some src) (hd : g.pin? I = some d) (h1 : I ≠ S) (h2 : d.LinkedTo = []) :
    (MovePinLinksToIntermediate g S I).pin? I
      = some { d with LinkedTo := src.LinkedTo, DefaultValue := src.DefaultValue } := by
  rw [pin?_Move g S I src hs, hd]
  simp [moveLinks_dst src S I d h1 h2]

theorem pin?_SetDefaultValue_other (g : UEdGraph) (P q : PinPtr) (v : String) (h : q ≠ P) :
    (SetDefaultValue g P v).pin? q = g.pin? q := by
  unfold SetDefaultValue
  rw [pin?_mapPins]
  cases g.pin? q with
  | none => rfl
  | some p => simp [h]

theorem pin?_SetDefaultValue_at (g : UEdGraph) (P : PinPtr) (v : String) (p : UEdGraphPin)
    (h : g.pin? P = some p) :
    (SetDefaultValue g P v).pin? P = some { p with DefaultValue := v } := by
  unfold SetDefaultValue
  rw [pin?_mapPins, h]
  simp

theorem headers_SetDefaultValue (g : UEdGraph) (P : PinPtr) (v : String) :
    (SetDefaultValue g P v).headers = g.headers :=
  headers_mapPins _ g

theorem headers_BreakAllNodeLinks (g : UEdGraph) (self : Nat) :
    (BreakAllNodeLinks g self).headers = g.headers :=
  headers_mapPins _ g

theorem pin?_BreakAllNodeLinks_other (g : UEdGraph) (self : Nat) (q : PinPtr) (p : UEdGraphPin)
    (hq : q.Node ≠ self) (hp : g.pin? q = some p) (hl : ∀ r ∈ p.LinkedTo, r.Node ≠ self) :
    (BreakAllNodeLinks g self).pin? q = some p := by
  unfold BreakAllNodeLinks
  rw [pin?_mapPins, hp]
  simp only [Option.map_some', hq, if_false]
  have hf : p.LinkedTo.filter (fun r => decide (¬ (r.Node = self ∧ q ∈ g.linksOf r)))
      = p.LinkedTo := by
    apply List.filter_eq_self.mpr
    intro r hr
    simp [hl r hr]
  rw [hf]

/-- After `BreakAllNodeLinks` no pin of the node holds a link. -/
theorem BreakAllNodeLinks_clears (g : UEdGraph) (self : Nat) (nd : UEdGraphNode)
    (h : (BreakAllNodeLinks g self).Nodes[self]? = some nd) :
    ∀ p ∈ nd.Pins, p.LinkedTo = [] := by
  intro p hp
  obtain ⟨i, hi⟩ := List.mem_iff_getElem?.mp hp
  have hpin : (BreakAllNodeLinks g self).pin? ⟨self, i⟩ = some p := by
    simp [UEdGraph.pin?, h, hi]
  unfold BreakAllNodeLinks at hpin
  rw [pin?_mapPins] at hpin
  cases hq : g.pin? ⟨self, i⟩ with
  | none => simp [hq] at hpin
  | some p0 =>
    simp only [hq, Option.map_some', if_true] at hpin
    rw [← Option.some.inj hpin]

theorem node_isSome_of_headers (g : UEdGraph) (n : Nat) (h : n < g.headers.length) :
    ∃ nd, g.Nodes[n]? = some nd := by
  have hn : n < g.Nodes.length := by simpa [UEdGraph.headers] using h
  exact ⟨g.Nodes[n], List.getElem?_eq_getElem hn⟩

theorem step_self (g : UEdGraph) (self call j c k : Nat) (src : UEdGraphPin)
    (hs : g.pin? ⟨self, j⟩ = some src)
    (hL : ∀ r ∈ src.LinkedTo, r.Node ≠ self ∧ r.Node ≠ call)
    (hsc : self ≠ call) (hk : k ≠ j) :
    (MovePinLinksToIntermediate g ⟨self, j⟩ ⟨call, c⟩).pin? ⟨self, k⟩ = g.pin? ⟨self, k⟩ := by
  apply pin?_Move_other g _ _ _ src hs
  · intro h
    exact hk (congrArg PinPtr.Index h)
  · intro h
    exact hsc (congrArg PinPtr.Node h)
  · intro h
    exact (hL _ h).1 rfl

theorem step_call (g : UEdGraph) (self call j c k : Nat) (src : UEdGraphPin)
    (hs : g.pin? ⟨self, j⟩ = some src)
    (hL : ∀ r ∈ src.LinkedTo, r.Node ≠ self ∧ r.Node ≠ call)
    (hsc : self ≠ call) (hk : k ≠ c) :
    (MovePinLinksToIntermediate g ⟨self, j⟩ ⟨call, c⟩).pin? ⟨call, k⟩ = g.pin? ⟨call, k⟩ := by
  apply pin?_Move_other g _ _ _ src hs
  · intro h
    exact hsc (congrArg PinPtr.Node h).symm
  · intro h
    exact hk (congrArg PinPtr.Index h)
  · intro h
    exact (hL _ h).2 rfl

theorem step_dst (g : UEdGraph) (self call j c : Nat) (src d : UEdGraphPin)
    (hs : g.pin? ⟨self, j⟩ = some src) (hd : g.pin? ⟨call, c⟩ = some d)
    (hsc : self ≠ call) (he : d.LinkedTo = []) :
    (MovePinLinksToIntermediate g ⟨self, j⟩ ⟨call, c⟩).pin? ⟨call, c⟩
      = some { d with LinkedTo := src.LinkedTo, DefaultValue := src.DefaultValue } := by
  apply pin?_Move_dst g _ _ src d hs hd _ he
  intro h
  exact hsc (congrArg PinPtr.Node h).symm

theorem set_self (g : UEdGraph) (self call c k : Nat) (v : String) (hsc : self ≠ call) :
    (SetDefaultValue g ⟨call, c⟩ v).pin? ⟨self, k⟩ = g.pin? ⟨self, k⟩ := by
  apply pin?_SetDefaultValue_other
  intro h
  exact hsc (congrArg PinPtr.Node h)

theorem set_call (g : UEdGraph) (call c k : Nat) (v : String) (hk : k ≠ c) :
    (SetDefaultValue g ⟨call, c⟩ v).pin? ⟨call, k⟩ = g.pin? ⟨call, k⟩ := by
  apply pin?_SetDefaultValue_other
  intro h
  exact hk (congrArg PinPtr.Index h)

/-- The second half of `ExpandNode`, from the graph `ConnectContextActor` returns: the
call's pins at the end, given the node's data pins and the call's pins at the start. -/
theorem expand_tail (g : UEdGraph) (self call : Nat) (NodeID : String)
    (id im io itr : Nat) (pd pm po pr c0 c1 c4 c5 c6 c7 c8 : UEdGraphPin)
    (hsc : self ≠ call)
    (hd : g.pin? ⟨self, id⟩ = some pd) (hm : g.pin? ⟨self, im⟩ = some pm)
    (ho : g.pin? ⟨self, io⟩ = some po) (hr : g.pin? ⟨self, itr⟩ = some pr)
    (hdm : im ≠ id) (hdo : io ≠ id) (hdr : itr ≠ id) (hmo : io ≠ im) (hmr : itr ≠ im)
    (hor : itr ≠ io)
    (hLd : ∀ r ∈ pd.LinkedTo, r.Node ≠ self ∧ r.Node ≠ call)
    (hLm : ∀ r ∈ pm.LinkedTo, r.Node ≠ self ∧ r.Node ≠ call)
    (hLo : ∀ r ∈ po.LinkedTo, r.Node ≠ self ∧ r.Node ≠ call)
    (hLr : ∀ r ∈ pr.LinkedTo, r.Node ≠ self ∧ r.Node ≠ call)
    (h0 : g.pin? ⟨call, 0⟩ = some c0) (h1 : g.pin? ⟨call, 1⟩ = some c1)
    (h4 : g.pin? ⟨call, 4⟩ = some c4) (h5 : g.pin? ⟨call, 5⟩ = some c5)
    (h6 : g.pin? ⟨call, 6⟩ = some c6) (h7 : g.pin? ⟨call, 7⟩ = some c7)
    (h8 : g.pin? ⟨call, 8⟩ = some c8)
    (l0 : ∀ r ∈ c0.LinkedTo, r.Node ≠ self) (l1 : ∀ r ∈ c1.LinkedTo, r.Node ≠ self)
    (e4 : c4.LinkedTo = []) (e5 : c5.LinkedTo = []) (e6 : c6.LinkedTo = [])
    (e7 : c7.LinkedTo = []) (e8 : c8.LinkedTo = [])
    (G : UEdGraph)
    (hG : G = BreakAllNodeLinks
        (MovePinLinksToIntermediate
          (MovePinLinksToIntermediate
            (SetDefaultValue
              (MovePinLinksToIntermediate
                (MovePinLinksToIntermediate g ⟨self, id⟩ ⟨call, 4⟩)
                ⟨self, im⟩ ⟨call, 5⟩)
              ⟨call, 6⟩ NodeID)
            ⟨self, io⟩ ⟨call, 8⟩)
          ⟨self, itr⟩ ⟨call, 7⟩)
        self) :
    G.pin? ⟨call, 0⟩ = some c0
      ∧ G.pin? ⟨call, 1⟩ = some c1
      ∧ G.pin? ⟨call, 4⟩
          = some { c4 with LinkedTo := pd.LinkedTo, DefaultValue := pd.DefaultValue }
      ∧ G.pin? ⟨call, 5⟩
          = some { c5 with LinkedTo := pm.LinkedTo, DefaultValue := pm.DefaultValue }
      ∧ G.pin? ⟨call, 6⟩ = some { c6 with DefaultValue := NodeID }
      ∧ G.pin? ⟨call, 7⟩
          = some { c7 with LinkedTo := pr.LinkedTo, DefaultValue := pr.DefaultValue }
      ∧ G.pin? ⟨call, 8⟩
          = some { c8 with LinkedTo := po.LinkedTo, DefaultValue := po.DefaultValue } := by
  subst hG
  -- the source pins, each as it is when its move starts
  have sm : (MovePinLinksToIntermediate g ⟨self, id⟩ ⟨call, 4⟩).pin? ⟨self, im⟩ = some pm := by
    rw [step_self g self call id 4 im pd hd hLd hsc hdm, hm]
  generalize hG1 : MovePinLinksToIntermediate g ⟨self, id⟩ ⟨call, 4⟩ = G1 at sm ⊢
  have a0 : G1.pin? ⟨call, 0⟩ = some c0 := by
    rw [← hG1, step_call g self call id 4 0 pd hd hLd hsc (by decide), h0]
  have a1 : G1.pin? ⟨call, 1⟩ = some c1 := by
    rw [← hG1, step_call g self call id 4 1 pd hd hLd hsc (by decide), h1]
  have a4 : G1.pin? ⟨call, 4⟩
      = some { c4 with LinkedTo := pd.LinkedTo, DefaultValue := pd.DefaultValue } := by
    rw [← hG1, step_dst g self call id 4 pd c4 hd h4 hsc e4]
  have a5 : G1.pin? ⟨call, 5⟩ = some c5 := by
    rw [← hG1, step_call g self call id 4 5 pd hd hLd hsc (by decide), h5]
  have a6 : G1.pin? ⟨call, 6⟩ = some c6 := by
    rw [← hG1, step_call g self call id 4 6 pd hd hLd hsc (by decide), h6]
  have a7 : G1.pin? ⟨call, 7⟩ = some c7 := by
    rw [← hG1, step_call g self call id 4 7 pd hd hLd hsc (by decide), h7]
  have a8 : G1.pin? ⟨call, 8⟩ = some c8 := by
    rw [← hG1, step_call g self call id 4 8 pd hd hLd hsc (by decide), h8]
  have ao : G1.pin? ⟨self, io⟩ = some po := by
    rw [← hG1, step_self g self call id 4 io pd hd hLd hsc hdo, ho]
  have ar : G1.pin? ⟨self, itr⟩ = some pr := by
    rw [← hG1, step_self g self call id 4 itr pd hd hLd hsc hdr, hr]
  clear hG1 hd hm ho hr h0 h1 h4 h5 h6 h7 h8
  -- second move
  have b0 : (MovePinLinksToIntermediate G1 ⟨self, im⟩ ⟨call, 5⟩).pin? ⟨call, 0⟩ = some c0 := by
    rw [step_call G1 self call im 5 0 pm sm hLm hsc (by decide), a0]
  have b1 : (MovePinLinksToIntermediate G1 ⟨self, im⟩ ⟨call, 5⟩).pin? ⟨call, 1⟩ = some c1 := by
    rw [step_call G1 self call im 5 1 pm sm hLm hsc (by decide), a1]
  have b4 : (MovePinLinksToIntermediate G1 ⟨self, im⟩ ⟨call, 5⟩).pin? ⟨call, 4⟩
      = some { c4 with LinkedTo := pd.LinkedTo, DefaultValue := pd.DefaultValue } := by
    rw [step_call G1 self call im 5 4 pm sm hLm hsc (by decide), a4]
  have b5 : (MovePinLinksToIntermediate G1 ⟨self, im⟩ ⟨call, 5⟩).pin? ⟨call, 5⟩
      = some { c5 with LinkedTo := pm.LinkedTo, DefaultValue := pm.DefaultValue } := by
    rw [step_dst G1 self call im 5 pm c5 sm a5 hsc e5]
  have b6 : (MovePinLinksToIntermediate G1 ⟨self, im⟩ ⟨call, 5⟩).pin? ⟨call, 6⟩ = some c6 := by
    rw [step_call G1 self call im 5 6 pm sm hLm hsc (by decide), a6]
  have b7 : (MovePinLinksToIntermediate G1 ⟨self, im⟩ ⟨call, 5⟩).pin? ⟨call, 7⟩ = some c7 := by
    rw [step_call G1 self call im 5 7 pm sm hLm hsc (by decide), a7]
  have b8 : (MovePinLinksToIntermediate G1 ⟨self, im⟩ ⟨call, 5⟩).pin? ⟨call, 8⟩ = some c8 := by
    rw [step_call G1 self call im 5 8 pm sm hLm hsc (by decide), a8]
  have bo : (MovePinLinksToIntermediate G1 ⟨self, im⟩ ⟨call, 5⟩).pin? ⟨self, io⟩ = some po := by
    rw [step_self G1 self call im 5 io pm sm hLm hsc hmo, ao]
  have br : (MovePinLinksToIntermediate G1 ⟨self, im⟩ ⟨call, 5⟩).pin? ⟨self, itr⟩ = some pr := by
    rw [step_self G1 self call im 5 itr pm sm hLm hsc hmr, ar]
  generalize MovePinLinksToIntermediate G1 ⟨self, im⟩ ⟨call, 5⟩ = G2 at b0 b1 b4 b5 b6 b7 b8 bo br ⊢
  clear sm a0 a1 a4 a5 a6 a7 a8 ao ar
  -- the NodeID default
  have d0 : (SetDefaultValue G2 ⟨call, 6⟩ NodeID).pin? ⟨call, 0⟩ = some c0 := by
    rw [set_call G2 call 6 0 NodeID (by decide), b0]
  have d1 : (SetDefaultValue G2 ⟨call, 6⟩ NodeID).pin? ⟨call, 1⟩ = some c1 := by
    rw [set_call G2 call 6 1 NodeID (by decide), b1]
  have d4 : (SetDefaultValue G2 ⟨call, 6⟩ NodeID).pin? ⟨call, 4⟩
      = some { c4 with LinkedTo := pd.LinkedTo, DefaultValue := pd.DefaultValue } := by
    rw [set_call G2 call 6 4 NodeID (by decide), b4]
  have d5 : (SetDefaultValue G2 ⟨call, 6⟩ NodeID).pin? ⟨call, 5⟩
      = some { c5 with LinkedTo := pm.LinkedTo, DefaultValue := pm.DefaultValue } := by
    rw [set_call G2 call 6 5 NodeID (by decide), b5]
  have d6 : (SetDefaultValue G2 ⟨call, 6⟩ NodeID).pin? ⟨call, 6⟩
      = some { c6 with DefaultValue := NodeID } :=
    pin?_SetDefaultValue_at G2 ⟨call, 6⟩ NodeID c6 b6
  have d7 : (SetDefaultValue G2 ⟨call, 6⟩ NodeID).pin? ⟨call, 7⟩ = some c7 := by
    rw [set_call G2 call 6 7 NodeID (by decide), b7]
  have d8 : (SetDefaultValue G2 ⟨call, 6⟩ NodeID).pin? ⟨call, 8⟩ = some c8 := by
    rw [set_call G2 call 6 8 NodeID (by decide), b8]
  have dO : (SetDefaultValue G2 ⟨call, 6⟩ NodeID).pin? ⟨self, io⟩ = some po := by
    rw [set_self G2 self call 6 io NodeID hsc, bo]
  have dr : (SetDefaultValue G2 ⟨call, 6⟩ NodeID).pin? ⟨self, itr⟩ = some pr := by
    rw [set_self G2 self call 6 itr NodeID hsc, br]
  generalize SetDefaultValue G2 ⟨call, 6⟩ NodeID = G3 at d0 d1 d4 d5 d6 d7 d8 dO dr ⊢
  clear b0 b1 b4 b5 b6 b7 b8 bo br
  -- third move
  have f0 : (MovePinLinksToIntermediate G3 ⟨self, io⟩ ⟨call, 8⟩).pin? ⟨call, 0⟩ = some c0 := by
    rw [step_call G3 self call io 8 0 po dO hLo hsc (by decide), d0]
  have f1 : (MovePinLinksToIntermediate G3 ⟨self, io⟩ ⟨call, 8⟩).pin? ⟨call, 1⟩ = some c1 := by
    rw [step_call G3 self call io 8 1 po dO hLo hsc (by decide), d1]
  have f4 : (MovePinLinksToIntermediate G3 ⟨self, io⟩ ⟨call, 8⟩).pin? ⟨call, 4⟩
      = some { c4 with LinkedTo := pd.LinkedTo, DefaultValue := pd.DefaultValue } := by
    rw [step_call G3 self call io 8 4 po dO hLo hsc (by decide), d4]
  have f5 : (MovePinLinksToIntermediate G3 ⟨self, io⟩ ⟨call, 8⟩).pin? ⟨call, 5⟩
      = some { c5 with LinkedTo := pm.LinkedTo, DefaultValue := pm.DefaultValue } := by
    rw [step_call G3 self call io 8 5 po dO hLo hsc (by decide), d5]
  have f6 : (MovePinLinksToIntermediate G3 ⟨self, io⟩ ⟨call, 8⟩).pin? ⟨call, 6⟩
      = some { c6 with DefaultValue := NodeID } := by
    rw [step_call G3 self call io 8 6 po dO hLo hsc (by decide), d6]
  have f7 : (MovePinLinksToIntermediate G3 ⟨self, io⟩ ⟨call, 8⟩).pin? ⟨call, 7⟩ = some c7 := by
    rw [step_call G3 self call io 8 7 po dO hLo hsc (by decide), d7]
  have f8 : (MovePinLinksToIntermediate G3 ⟨self, io⟩ ⟨call, 8⟩).pin? ⟨call, 8⟩
      = some { c8 with LinkedTo := po.LinkedTo, DefaultValue := po.DefaultValue } := by
    rw [step_dst G3 self call io 8 po c8 dO d8 hsc e8]
  have fr : (MovePinLinksToIntermediate G3 ⟨self, io⟩ ⟨call, 8⟩).pin? ⟨self, itr⟩ = some pr := by
    rw [step_self G3 self call io 8 itr po dO hLo hsc hor, dr]
  generalize MovePinLinksToIntermediate G3 ⟨self, io⟩ ⟨call, 8⟩ = G4 at f0 f1 f4 f5 f6 f7 f8 fr ⊢
  clear d0 d1 d4 d5 d6 d7 d8 dO dr
  -- fourth move
  have k0 : (MovePinLinksToIntermediate G4 ⟨self, itr⟩ ⟨call, 7⟩).pin? ⟨call, 0⟩ = some c0 := by
    rw [step_call G4 self call itr 7 0 pr fr hLr hsc (by decide), f0]
  have k1 : (MovePinLinksToIntermediate G4 ⟨self, itr⟩ ⟨call, 7⟩).pin? ⟨call, 1⟩ = some c1 := by
    rw [step_call G4 self call itr 7 1 pr fr hLr hsc (by decide), f1]
  have k4 : (MovePinLinksToIntermediate G4 ⟨self, itr⟩ ⟨call, 7⟩).pin? ⟨call, 4⟩
      = some { c4 with LinkedTo := pd.LinkedTo, DefaultValue := pd.DefaultValue } := by
    rw [step_call G4 self call itr 7 4 pr fr hLr hsc (by decide), f4]
  have k5 : (MovePinLinksToIntermediate G4 ⟨self, itr⟩ ⟨call, 7⟩).pin? ⟨call, 5⟩
      = some { c5 with LinkedTo := pm.LinkedTo, DefaultValue := pm.DefaultValue } := by
    rw [step_call G4 self call itr 7 5 pr fr hLr hsc (by decide), f5]
  have k6 : (MovePinLinksToIntermediate G4 ⟨self, itr⟩ ⟨call, 7⟩).pin? ⟨call, 6⟩
      = some { c6 with DefaultValue := NodeID } := by
    rw [step_call G4 self call itr 7 6 pr fr hLr hsc (by decide), f6]
  have k7 : (MovePinLinksToIntermediate G4 ⟨self, itr⟩ ⟨call, 7⟩).pin? ⟨call, 7⟩
      = some { c7 with LinkedTo := pr.LinkedTo, DefaultValue := pr.DefaultValue } := by
    rw [step_dst G4 self call itr 7 pr c7 fr f7 hsc e7]
  have k8 : (MovePinLinksToIntermediate G4 ⟨self, itr⟩ ⟨call, 7⟩).pin? ⟨call, 8⟩
      = some { c8 with LinkedTo := po.LinkedTo, DefaultValue := po.DefaultValue } := by
    rw [step_call G4 self call itr 7 8 pr fr hLr hsc (by decide), f8]
  generalize MovePinLinksToIntermediate G4 ⟨self, itr⟩ ⟨call, 7⟩ = G5 at k0 k1 k4 k5 k6 k7 k8 ⊢
  -- the node's links are broken
  have hcs : call ≠ self := fun h => hsc h.symm
  refine ⟨?_, ?_, ?_, ?_, ?_, ?_, ?_⟩
  · exact pin?_BreakAllNodeLinks_other G5 self ⟨call, 0⟩ _ hcs k0 l0
  · exact pin?_BreakAllNodeLinks_other G5 self ⟨call, 1⟩ _ hcs k1 l1
  · exact pin?_BreakAllNodeLinks_other G5 self ⟨call, 4⟩ _ hcs k4 (fun r hr => (hLd r hr).1)
  · exact pin?_BreakAllNodeLinks_other G5 self ⟨call, 5⟩ _ hcs k5 (fun r hr => (hLm r hr).1)
  · exact pin?_BreakAllNodeLinks_other G5 self ⟨call, 6⟩ _ hcs k6
      (fun r hr => by rw [e6] at hr; exact absurd hr (List.not_mem_nil r))
  · exact pin?_BreakAllNodeLinks_other G5 self ⟨call, 7⟩ _ hcs k7 (fun r hr => (hLr r hr).1)
  · exact pin?_BreakAllNodeLinks_other G5 self ⟨call, 8⟩ _ hcs k8 (fun r hr => (hLo r hr).1)

/-! ### GUID rendering -/

theorem hexDigit_inj : ∀ a < 16, ∀ b < 16, hexDigit a = hexDigit b → a = b := by
  decide

theorem hex8_length (n : Nat) : (hex8 n).length = 8 := rfl

theorem hex8_inj (a b : Nat) (ha : a < 4294967296) (hb : b < 4294967296)
    (h : hex8 a = hex8 b) : a = b := by
  simp only [hex8, List.cons.injEq, and_true] at h
  obtain ⟨h7, h6, h5, h4, h3, h2, h1, h0⟩ := h
  have e7 := hexDigit_inj _ (Nat.mod_lt _ (by decide)) _ (Nat.mod_lt _ (by decide)) h7
  have e6 := hexDigit_inj _ (Nat.mod_lt _ (by decide)) _ (Nat.mod_lt _ (by decide)) h6
  have e5 := hexDigit_inj _ (Nat.mod_lt _ (by decide)) _ (Nat.mod_lt _ (by decide)) h5
  have e4 := hexDigit_inj _ (Nat.mod_lt _ (by decide)) _ (Nat.mod_lt _ (by decide)) h4
  have e3 := hexDigit_inj _ (Nat.mod_lt _ (by decide)) _ (Nat.mod_lt _ (by decide)) h3
  have e2 := hexDigit_inj _ (Nat.mod_lt _ (by decide)) _ (Nat.mod_lt _ (by decide)) h2
  have e1 := hexDigit_inj _ (Nat.mod_lt _ (by decide)) _ (Nat.mod_lt _ (by decide)) h1
  have e0 := hexDigit_inj _ (Nat.mod_lt _ (by decide)) _ (Nat.mod_lt _ (by decide)) h0
  omega

/-- The `Digits` rendering tells valid GUIDs apart. -/
theorem ToString_Digits_inj (x y : FGuid) (hx : x.Valid) (hy : y.Valid)
    (h : x.ToString EGuidFormats.Digits = y.ToString EGuidFormats.Digits) : x = y := by
  have h := congrArg String.data h
  simp only [FGuid.ToString, List.append_assoc] at h
  obtain ⟨hA, h⟩ := List.append_inj h (by simp [hex8_length])
  obtain ⟨hB, h⟩ := List.append_inj h (by simp [hex8_length])
  obtain ⟨hC, hD⟩ := List.append_inj h (by simp [hex8_length])
  obtain ⟨xa, xb, xc, xd⟩ := hx
  obtain ⟨ya, yb, yc, yd⟩ := hy
  cases x
  cases y
  simp only [FGuid.mk.injEq]
  exact ⟨hex8_inj _ _ xa ya hA, hex8_inj _ _ xb yb hB, hex8_inj _ _ xc yc hC,
    hex8_inj _ _ xd yd hD⟩

/-- The first half of `ExpandNode`, up to the call of `ConnectContextActor`: the node's
data pins are as they were, the call's `execute` and `then` pins hold the links of the
node's, and the call's other pins are as created. -/
theorem expand_head (Super : UInteractMLNode) (ctx : FKismetCompilerContext)
    (g : UEdGraph) (self : Nat) (nd : UEdGraphNode) (ie it k : Nat)
    (pe pt : UEdGraphPin)
    (hnode : (Super.ExpandNode g self).Nodes[self]? = some nd)
    (he : nd.Pins[ie]? = some pe) (ht : nd.Pins[it]? = some pt)
    (hte : it ≠ ie)
    (hLe : ∀ r ∈ pe.LinkedTo, r.Node ≠ self ∧ r.Node ≠ (Super.ExpandNode g self).Nodes.length)
    (hLt : ∀ r ∈ pt.LinkedTo, r.Node ≠ self ∧ r.Node ≠ (Super.ExpandNode g self).Nodes.length) :
    ((k ≠ ie → k ≠ it → (graphAtConnectContextActor Super ctx g self ie it).pin? ⟨self, k⟩
        = nd.Pins[k]?)
      ∧ (k ≠ 0 → k ≠ 1 →
          (graphAtConnectContextActor Super ctx g self ie it).pin?
            ⟨(Super.ExpandNode g self).Nodes.length, k⟩
          = (UK2Node_CallFunction FindModelAccessFunction ctx.NewGuid).Pins[k]?))
      ∧ (graphAtConnectContextActor Super ctx g self ie it).pin?
          ⟨(Super.ExpandNode g self).Nodes.length, 0⟩
          = some { PinName := PN_Execute, Direction := EEdGraphPinDirection.EGPD_Input,
                   PinCategory := PC_Exec, PinSubCategoryObject := none,
                   PinToolTip := "", DefaultValue := pe.DefaultValue,
                   LinkedTo := pe.LinkedTo }
      ∧ (graphAtConnectContextActor Super ctx g self ie it).pin?
          ⟨(Super.ExpandNode g self).Nodes.length, 1⟩
          = some { PinName := PN_Then, Direction := EEdGraphPinDirection.EGPD_Output,
                   PinCategory := PC_Exec, PinSubCategoryObject := none,
                   PinToolTip := "", DefaultValue := pt.DefaultValue,
                   LinkedTo := pt.LinkedTo }
      ∧ (graphAtConnectContextActor Super ctx g self ie it).headers
          = (Super.ExpandNode g self).headers
            ++ [(UK2Node_CallFunction FindModelAccessFunction ctx.NewGuid).header] := by
  have hlt : self < (Super.ExpandNode g self).Nodes.length := by
    by_contra hc
    rw [List.getElem?_eq_none (Nat.le_of_not_lt hc)] at hnode
    exact Option.noConfusion hnode
  have hsc : self ≠ (Super.ExpandNode g self).Nodes.length := Nat.ne_of_lt hlt
  have hself : ∀ j, ((Super.ExpandNode g self).AddNode
      (UK2Node_CallFunction FindModelAccessFunction ctx.NewGuid)).pin? ⟨self, j⟩ = nd.Pins[j]? := by
    intro j
    rw [pin?_AddNode_of_lt _ _ _ hlt]
    simp [UEdGraph.pin?, hnode]
  have hcall : ∀ j, ((Super.ExpandNode g self).AddNode
      (UK2Node_CallFunction FindModelAccessFunction ctx.NewGuid)).pin?
        ⟨(Super.ExpandNode g self).Nodes.length, j⟩
      = (UK2Node_CallFunction FindModelAccessFunction ctx.NewGuid).Pins[j]? :=
    fun j => pin?_AddNode_new _ _ j
  have hhead := headers_AddNode (Super.ExpandNode g self)
    (UK2Node_CallFunction FindModelAccessFunction ctx.NewGuid)
  unfold graphAtConnectContextActor
  simp only []
  generalize (Super.ExpandNode g self).AddNode
    (UK2Node_CallFunction FindModelAccessFunction ctx.NewGuid) = g2 at hself hcall hhead ⊢
  generalize (Super.ExpandNode g self).Nodes.length = call at hsc hLe hLt hcall ⊢
  have se : g2.pin? ⟨self, ie⟩ = some pe := by rw [hself, he]
  have st : (MovePinLinksToIntermediate g2 ⟨self, ie⟩ ⟨call, 0⟩).pin? ⟨self, it⟩ = some pt := by
    rw [step_self g2 self call ie 0 it pe se hLe hsc hte, hself, ht]
  refine ⟨⟨?_, ?_⟩, ?_, ?_, ?_⟩
  · intro h1 h2
    rw [step_self _ self call it 1 k pt st hLt hsc h2,
      step_self g2 self call ie 0 k pe se hLe hsc h1, hself]
  · intro h1 h2
    rw [step_call _ self call it 1 k pt st hLt hsc h2,
      step_call g2 self call ie 0 k pe se hLe hsc h1, hcall]
  · rw [step_call _ self call it 1 0 pt st hLt hsc (by decide),
      step_dst g2 self call ie 0 pe _ se (by rw [hcall]; rfl) hsc rfl]
    rfl
  · rw [step_dst _ self call it 1 pt _ st
      (by rw [step_call g2 self call ie 0 1 pe se hLe hsc (by decide), hcall]; rfl) hsc rfl]
    rfl
  · rw [headers_Move, headers_Move, hhead]

theorem FindPinWithDirection_some (nd : UEdGraphNode) (name : FName)
    (dir : EEdGraphPinDirection) (i : Nat)
    (h : nd.FindPinWithDirection name dir = Except.ok (some i)) :
    ∃ p, nd.Pins[i]? = some p ∧ p.PinName.same name = true := by
  unfold UEdGraphNode.FindPinWithDirection at h
  cases hf : nd.FindPin name with
  | none =>
    simp only [hf] at h
    exact Option.noConfusion (Except.ok.inj h)
  | some j =>
    simp only [hf] at h
    split at h
    · obtain rfl := Option.some.inj (Except.ok.inj h)
      exact FindPinIdx_some name nd.Pins j hf
    · exact Except.noConfusion h

theorem index_ne_of_names (pins : List UEdGraphPin) (a b : FName) (i j : Nat)
    (hab : a.key ≠ b.key)
    (hi : ∃ p, pins[i]? = some p ∧ p.PinName.same a = true)
    (hj : ∃ p, pins[j]? = some p ∧ p.PinName.same b = true) : i ≠ j := by
  rintro rfl
  obtain ⟨p, hp, ha⟩ := hi
  obtain ⟨q, hq, hb⟩ := hj
  rw [hp] at hq
  obtain rfl := Option.some.inj hq
  simp only [FName.same, decide_eq_true_eq] at ha hb
  exact hab (ha.symm.trans hb)

theorem pin?_Move_name (g : UEdGraph) (S I q : PinPtr) :
    ((MovePinLinksToIntermediate g S I).pin? q).map (fun p => p.PinName)
      = (g.pin? q).map (fun p => p.PinName) := by
  unfold MovePinLinksToIntermediate
  cases g.pin? S with
  | none => rfl
  | some src =>
    simp only [pin?_mapPins]
    cases g.pin? q with
    | none => rfl
    | some p =>
      simp only [Option.map_some', moveLinks]
      split
      · rfl
      · split
        · rfl
        · split <;> rfl

theorem pin?_Move_name_default (g : UEdGraph) (S I q : PinPtr) (hq : q ≠ I) :
    ((MovePinLinksToIntermediate g S I).pin? q).map (fun p => (p.PinName, p.DefaultValue))
      = (g.pin? q).map (fun p => (p.PinName, p.DefaultValue)) := by
  unfold MovePinLinksToIntermediate
  cases g.pin? S with
  | none => rfl
  | some src =>
    simp only [pin?_mapPins]
    cases g.pin? q with
    | none => rfl
    | some p =>
      simp only [Option.map_some', moveLinks, hq, if_false]
      split
      · rfl
      · split <;> rfl

theorem pin?_Break_name_default (g : UEdGraph) (self : Nat) (q : PinPtr) :
    ((BreakAllNodeLinks g self).pin? q).map (fun p => (p.PinName, p.DefaultValue))
      = (g.pin? q).map (fun p => (p.PinName, p.DefaultValue)) := by
  unfold BreakAllNodeLinks
  simp only [pin?_mapPins]
  cases g.pin? q with
  | none => rfl
  | some p =>
    simp only [Option.map_some']
    split <;> rfl

theorem pin?_SetDefaultValue_name_default (g : UEdGraph) (P : PinPtr) (v : String) :
    ((SetDefaultValue g P v).pin? P).map (fun p => (p.PinName, p.DefaultValue))
      = (g.pin? P).map (fun p => (p.PinName, v)) := by
  unfold SetDefaultValue
  simp only [pin?_mapPins]
  cases g.pin? P with
  | none => rfl
  | some p => simp

theorem ne_of_index_ne (n i j : Nat) (h : i ≠ j) : (⟨n, i⟩ : PinPtr) ≠ ⟨n, j⟩ :=
  fun e => h (congrArg PinPtr.Index e)

/-- C4: `ExpandNode` sets the default value of the `NodeID` pin of the `GetModel` call
it spawns to the `Digits` rendering of the node's own GUID, whatever the node's pins are
linked to; and that value differs from the rendering of every other valid GUID, so two
nodes with different GUIDs pass different `NodeID` values. The lookups `ExpandNode`
dereferences are assumed to succeed, and `ConnectContextActor` to leave the pointer to
the `NodeID` pin designating that pin. -/
theorem ExpandNode_sets_NodeID (Super : UInteractMLNode) (ctx : FKismetCompilerContext)
    (g : UEdGraph) (self : Nat) (nd : UEdGraphNode) (ie it id im io itr : Nat)
    (hnode : (Super.ExpandNode g self).Nodes[self]? = some nd)
    (hexec : nd.GetExecPin = Except.ok (some ie))
    (hthen : nd.FindPin PN_Then = some it)
    (hdata : GetDataPathInputPin nd = Except.ok (some id))
    (htype : GetModelTypeInputPin nd = Except.ok (some im))
    (hmodel : GetModelOutputPin nd = Except.ok (some io))
    (htrained : GetIsTrainedOutputPin nd = Except.ok (some itr))
    (hactor : ((Super.ConnectContextActor (graphAtConnectContextActor Super ctx g self ie it)
        self ⟨(Super.ExpandNode g self).Nodes.length, 3⟩).pin?
          ⟨(Super.ExpandNode g self).Nodes.length, 6⟩).map (fun p => p.PinName)
        = some FInteractMLExternalModelNodeModelAccessFunctionPinNames.NodeIDPinName) :
    ∃ g', ExpandNode Super ctx g self = Except.ok g'
      ∧ (g'.pin? ⟨(Super.ExpandNode g self).Nodes.length, 6⟩).map
            (fun p => (p.PinName, p.DefaultValue))
          = some (FInteractMLExternalModelNodeModelAccessFunctionPinNames.NodeIDPinName,
                  nd.NodeGuid.ToString EGuidFormats.Digits)
      ∧ ∀ other : FGuid, other.Valid → nd.NodeGuid.Valid → other ≠ nd.NodeGuid →
          other.ToString EGuidFormats.Digits ≠ nd.NodeGuid.ToString EGuidFormats.Digits := by
  refine ⟨_, ExpandNode_eq Super ctx g self nd ie it id im io itr hnode hexec hthen hdata htype
    hmodel htrained, ?_, ?_⟩
  · rw [pin?_Break_name_default,
      pin?_Move_name_default _ _ _ _ (ne_of_index_ne _ 6 7 (by decide)),
      pin?_Move_name_default _ _ _ _ (ne_of_index_ne _ 6 8 (by decide)),
      pin?_SetDefaultValue_name_default]
    have hname := (pin?_Move_name
      (MovePinLinksToIntermediate
        (Super.ConnectContextActor (graphAtConnectContextActor Super ctx g self ie it) self
          ⟨(Super.ExpandNode g self).Nodes.length, 3⟩)
        ⟨self, id⟩ ⟨(Super.ExpandNode g self).Nodes.length, 4⟩)
      ⟨self, im⟩ ⟨(Super.ExpandNode g self).Nodes.length, 5⟩
      ⟨(Super.ExpandNode g self).Nodes.length, 6⟩).trans
      ((pin?_Move_name _ ⟨self, id⟩ ⟨(Super.ExpandNode g self).Nodes.length, 4⟩
        ⟨(Super.ExpandNode g self).Nodes.length, 6⟩).trans hactor)
    generalize (MovePinLinksToIntermediate
        (MovePinLinksToIntermediate
          (Super.ConnectContextActor (graphAtConnectContextActor Super ctx g self ie it) self
            ⟨(Super.ExpandNode g self).Nodes.length, 3⟩)
          ⟨self, id⟩ ⟨(Super.ExpandNode g self).Nodes.length, 4⟩)
        ⟨self, im⟩ ⟨(Super.ExpandNode g self).Nodes.length, 5⟩).pin?
      ⟨(Super.ExpandNode g self).Nodes.length, 6⟩ = x at hname ⊢
    cases x with
    | none => exact Option.noConfusion hname
    | some p =>
      simp only [Option.map_some', Option.some.injEq] at hname ⊢
      rw [hname]
  · intro other ho hn hne heq
    exact hne (ToString_Digits_inj other nd.NodeGuid ho hn heq)

theorem linksOf_of_pin? (g : UEdGraph) (q : PinPtr) (p : UEdGraphPin) (h : g.pin? q = some p) :
    g.linksOf q = p.LinkedTo := by
  simp [UEdGraph.linksOf, h]

theorem count_calls_of_headers (hs base extra : List (String × Option UFunction × FGuid))
    (H : String × Option UFunction × FGuid) (n : Nat)
    (hn : base.length = n) (hH : isGetModelCall H = true)
    (htake : hs.take (n + 1) = base ++ [H])
    (hdrop : ∀ h ∈ hs.drop (n + 1), isGetModelCall h = false) (hx : extra = hs.drop (n + 1)) :
    ((hs.drop n).filter isGetModelCall).length = 1 ∧ hs[n]? = some H := by
  have hsplit : hs = base ++ ([H] ++ extra) := by
    rw [← List.append_assoc, ← htake, hx, List.take_append_drop]
  have hfil : extra.filter isGetModelCall = [] := by
    apply List.filter_eq_nil_iff.mpr
    intro h hh
    rw [hx] at hh
    simp [hdrop h hh]
  subst hn
  constructor
  · rw [hsplit, List.drop_left, List.filter_append, hfil]
    simp [List.filter, hH]
  · rw [hsplit, List.getElem?_append_right (Nat.le_refl _)]
    simp

/-! ### The far ends of moved links -/

theorem linksOf_mapPins (f : PinPtr → UEdGraphPin → UEdGraphPin) (g : UEdGraph) (q : PinPtr)
    (p : UEdGraphPin) (h : g.pin? q = some p) :
    (g.mapPins f).linksOf q = (f q p).LinkedTo := by
  simp [UEdGraph.linksOf, pin?_mapPins, h]

theorem linksOf_of_none (g : UEdGraph) (q : PinPtr) (h : g.pin? q = none) :
    g.linksOf q = [] := by
  simp [UEdGraph.linksOf, h]

theorem isSome_pin?_Move (g : UEdGraph) (S I q : PinPtr) :
    ((MovePinLinksToIntermediate g S I).pin? q).isSome = (g.pin? q).isSome := by
  unfold MovePinLinksToIntermediate
  cases g.pin? S with
  | none => rfl
  | some src =>
    simp only [pin?_mapPins]
    cases g.pin? q <;> rfl

theorem isSome_pin?_SetDefaultValue (g : UEdGraph) (P q : PinPtr) (v : String) :
    ((SetDefaultValue g P v).pin? q).isSome = (g.pin? q).isSome := by
  unfold SetDefaultValue
  simp only [pin?_mapPins]
  cases g.pin? q <;> rfl

theorem linksOf_SetDefaultValue (g : UEdGraph) (P q : PinPtr) (v : String) :
    (SetDefaultValue g P v).linksOf q = g.linksOf q := by
  unfold SetDefaultValue UEdGraph.linksOf
  simp only [pin?_mapPins]
  cases g.pin? q with
  | none => rfl
  | some p =>
    simp only [Option.map_some', Option.getD_some]
    split <;> rfl

theorem linksOf_Move_other (g : UEdGraph) (S I q : PinPtr) (src : UEdGraphPin)
    (hs : g.pin? S = some src) (h1 : q ≠ S) (h2 : q ≠ I) (h3 : q ∉ src.LinkedTo) :
    (MovePinLinksToIntermediate g S I).linksOf q = g.linksOf q := by
  unfold UEdGraph.linksOf
  rw [pin?_Move_other g S I q src hs h1 h2 h3]

/-- A link a far pin holds to a pin other than the source pin survives the move. -/
theorem mem_linksOf_Move_keep (g : UEdGraph) (S I r c : PinPtr)
    (h : c ∈ g.linksOf r) (h1 : r ≠ S) (h2 : r ≠ I) (h3 : c ≠ S) :
    c ∈ (MovePinLinksToIntermediate g S I).linksOf r := by
  unfold MovePinLinksToIntermediate
  cases hs : g.pin? S with
  | none => exact h
  | some src =>
    cases hr : g.pin? r with
    | none =>
      rw [linksOf_of_none g r hr] at h
      exact absurd h (List.not_mem_nil c)
    | some p =>
      have hp : c ∈ p.LinkedTo := by
        rw [linksOf_of_pin? g r p hr] at h
        exact h
      simp only [linksOf_mapPins _ g r p hr, moveLinks, h1, h2, if_false]
      split
      · simp [hp, h3]
      · exact hp

/-- A pin the source pin was linked to is linked to the intermediate pin after the
move. -/
theorem mem_linksOf_Move_make (g : UEdGraph) (S I r : PinPtr) (src : UEdGraphPin)
    (hs : g.pin? S = some src) (hr : r ∈ src.LinkedTo) (h1 : r ≠ S) (h2 : r ≠ I)
    (he : (g.pin? r).isSome = true) :
    I ∈ (MovePinLinksToIntermediate g S I).linksOf r := by
  rw [Move_eq g S I src hs]
  cases hp : g.pin? r with
  | none =>
    rw [hp] at he
    exact Bool.noConfusion he
  | some p =>
    simp [linksOf_mapPins _ g r p hp, moveLinks, h1, h2, hr]

/-- A link a far pin holds to a pin of another node survives `BreakAllNodeLinks`. -/
theorem mem_linksOf_Break_keep (g : UEdGraph) (self : Nat) (r c : PinPtr)
    (h : c ∈ g.linksOf r) (h1 : r.Node ≠ self) (h2 : c.Node ≠ self) :
    c ∈ (BreakAllNodeLinks g self).linksOf r := by
  unfold BreakAllNodeLinks
  cases hr : g.pin? r with
  | none =>
    rw [linksOf_of_none g r hr] at h
    exact absurd h (List.not_mem_nil c)
  | some p =>
    have hp : c ∈ p.LinkedTo := by
      rw [linksOf_of_pin? g r p hr] at h
      exact h
    simp [linksOf_mapPins _ g r p hr, h1, hp, h2]

/-- Mutual links to the node stay mutual when the links of one of its pins are moved
to a pin of another node, the pin being linked to neither the node itself nor the
intermediate pin. -/
theorem Move_preserves_mutual (g : UEdGraph) (self : Nat) (S I : PinPtr) (src : UEdGraphPin)
    (hI : ∀ q : PinPtr, q.Node ≠ self → ∀ x ∈ g.linksOf q, x.Node = self → q ∈ g.linksOf x)
    (hs : g.pin? S = some src) (hIn : I.Node ≠ self)
    (hL : ∀ r ∈ src.LinkedTo, r.Node ≠ self ∧ r ≠ I) :
    ∀ q : PinPtr, q.Node ≠ self →
      ∀ x ∈ (MovePinLinksToIntermediate g S I).linksOf q, x.Node = self →
        q ∈ (MovePinLinksToIntermediate g S I).linksOf x := by
  intro q hq x hx hxs
  have hxI : x ≠ I := fun e => hIn (e ▸ hxs)
  have hxL : x ∉ src.LinkedTo := fun e => (hL x e).1 hxs
  -- a link to a pin of the node other than the source pin was there before
  have key : x ≠ S → x ∈ g.linksOf q → q ∈ (MovePinLinksToIntermediate g S I).linksOf x := by
    intro hxS hxq
    rw [linksOf_Move_other g S I x src hs hxS hxI hxL]
    exact hI q hq x hxq hxs
  have hSl : g.linksOf S = src.LinkedTo := linksOf_of_pin? g S src hs
  cases hp : g.pin? q with
  | none =>
    have : (MovePinLinksToIntermediate g S I).linksOf q = [] := by
      apply linksOf_of_none
      have := isSome_pin?_Move g S I q
      rw [hp] at this
      exact Option.not_isSome_iff_eq_none.mp (by rw [this]; simp)
    rw [this] at hx
    exact absurd hx (List.not_mem_nil x)
  | some p =>
    have hlq : g.linksOf q = p.LinkedTo := linksOf_of_pin? g q p hp
    rw [Move_eq g S I src hs, linksOf_mapPins _ g q p hp] at hx
    unfold moveLinks at hx
    by_cases c1 : q = S
    · simp only [c1, if_true] at hx
      exact absurd hx (List.not_mem_nil x)
    · by_cases c2 : q = I
      · subst c2
        simp only [c1, if_true, if_false] at hx
        rcases List.mem_append.mp hx with h | h
        · have hxq : x ∈ g.linksOf q := by rw [hlq]; exact h
          by_cases hxS : x = S
          · have hqS : q ∈ src.LinkedTo := by
              rw [← hSl, ← hxS]
              exact hI q hq x hxq hxs
            exact absurd rfl (hL q hqS).2
          · exact key hxS hxq
        · exact absurd (List.mem_filter.mp h).1 hxL
      · by_cases c3 : q ∈ src.LinkedTo
        · simp only [c1, c2, c3, if_true, if_false] at hx
          rcases List.mem_append.mp hx with h | h
          · obtain ⟨hm, hne⟩ := List.mem_filter.mp h
            have hxS : x ≠ S := by simpa using hne
            exact key hxS (by rw [hlq]; exact hm)
          · exact absurd (List.mem_singleton.mp h) hxI
        · simp only [c1, c2, c3, if_false] at hx
          by_cases hxS : x = S
          · have hqS : q ∈ src.LinkedTo := by
              rw [← hSl, ← hxS]
              exact hI q hq x (by rw [hlq]; exact hx) hxs
            exact absurd hqS c3
          · exact key hxS (by rw [hlq]; exact hx)

theorem SetDefaultValue_preserves_mutual (g : UEdGraph) (self : Nat) (P : PinPtr) (v : String)
    (hI : ∀ q : PinPtr, q.Node ≠ self → ∀ x ∈ g.linksOf q, x.Node = self → q ∈ g.linksOf x) :
    ∀ q : PinPtr, q.Node ≠ self → ∀ x ∈ (SetDefaultValue g P v).linksOf q, x.Node = self →
      q ∈ (SetDefaultValue g P v).linksOf x := by
  intro q hq x hx hxs
  rw [linksOf_SetDefaultValue] at hx ⊢
  exact hI q hq x hx hxs

/-- When links to the node are mutual, `BreakAllNodeLinks` leaves no pin of the graph
linked to a pin of the node. -/
theorem BreakAllNodeLinks_no_refs (g : UEdGraph) (self : Nat)
    (hI : ∀ q : PinPtr, q.Node ≠ self → ∀ x ∈ g.linksOf q, x.Node = self → q ∈ g.linksOf x) :
    ∀ (q : PinPtr), ∀ x ∈ (BreakAllNodeLinks g self).linksOf q, x.Node ≠ self := by
  intro q x hx hxs
  unfold BreakAllNodeLinks at hx
  cases hp : g.pin? q with
  | none =>
    rw [linksOf_of_none _ q (by rw [pin?_mapPins, hp]; rfl)] at hx
    exact absurd hx (List.not_mem_nil x)
  | some p =>
    rw [linksOf_mapPins _ g q p hp] at hx
    by_cases hq : q.Node = self
    · simp only [hq, if_true] at hx
      exact absurd hx (List.not_mem_nil x)
    · simp only [hq, if_false] at hx
      obtain ⟨hm, hc⟩ := List.mem_filter.mp hx
      have hxq : x ∈ g.linksOf q := by rw [linksOf_of_pin? g q p hp]; exact hm
      have := hI q hq x hxq hxs
      simp [hxs, this] at hc

/-- The bounded form of mutual links gives the form over all pin pointers. -/
theorem mutual_of_LinksToNodeAreMutual (g : UEdGraph) (self : Nat)
    (h : LinksToNodeAreMutual g self) :
    ∀ q : PinPtr, q.Node ≠ self → ∀ x ∈ g.linksOf q, x.Node = self → q ∈ g.linksOf x := by
  intro q hq x hx hxs
  cases hp : g.pin? q with
  | none =>
    rw [linksOf_of_none g q hp] at hx
    exact absurd hx (List.not_mem_nil x)
  | some p =>
    unfold UEdGraph.pin? at hp
    cases hn : g.Nodes[q.Node]? with
    | none => simp [hn] at hp
    | some nd =>
      simp only [hn, Option.some_bind] at hp
      have h1 : q.Node < g.Nodes.length := (List.getElem?_eq_some_iff.mp hn).1
      have h2 : q.Index < g.pinCount q.Node := by
        simp only [UEdGraph.pinCount, hn, Option.map_some', Option.getD_some]
        exact (List.getElem?_eq_some_iff.mp hp).1
      exact h q.Node h1 hq q.Index h2 x hx hxs

theorem far_keep_Move (g : UEdGraph) (self call j k : Nat) (r c : PinPtr)
    (h : c ∈ g.linksOf r) (hrs : r.Node ≠ self) (hrc : r.Node ≠ call) (hcs : c.Node ≠ self) :
    c ∈ (MovePinLinksToIntermediate g ⟨self, j⟩ ⟨call, k⟩).linksOf r :=
  mem_linksOf_Move_keep g _ _ r c h (fun e => hrs (congrArg PinPtr.Node e))
    (fun e => hrc (congrArg PinPtr.Node e)) (fun e => hcs (congrArg PinPtr.Node e))

theorem far_make_Move (g : UEdGraph) (self call j k : Nat) (r : PinPtr) (src : UEdGraphPin)
    (hs : g.pin? ⟨self, j⟩ = some src) (hr : r ∈ src.LinkedTo)
    (hrs : r.Node ≠ self) (hrc : r.Node ≠ call) (he : (g.pin? r).isSome = true) :
    (⟨call, k⟩ : PinPtr) ∈ (MovePinLinksToIntermediate g ⟨self, j⟩ ⟨call, k⟩).linksOf r :=
  mem_linksOf_Move_make g _ _ r src hs hr (fun e => hrs (congrArg PinPtr.Node e))
    (fun e => hrc (congrArg PinPtr.Node e)) he

theorem mutual_step (g : UEdGraph) (self call j k : Nat) (src : UEdGraphPin)
    (hI : ∀ q : PinPtr, q.Node ≠ self → ∀ x ∈ g.linksOf q, x.Node = self → q ∈ g.linksOf x)
    (hs : g.pin? ⟨self, j⟩ = some src) (hsc : self ≠ call)
    (hL : ∀ r ∈ src.LinkedTo, r.Node ≠ self ∧ r.Node ≠ call) :
    ∀ q : PinPtr, q.Node ≠ self →
      ∀ x ∈ (MovePinLinksToIntermediate g ⟨self, j⟩ ⟨call, k⟩).linksOf q, x.Node = self →
        q ∈ (MovePinLinksToIntermediate g ⟨self, j⟩ ⟨call, k⟩).linksOf x :=
  Move_preserves_mutual g self _ _ src hI hs (fun e => hsc e.symm)
    (fun r hr => ⟨(hL r hr).1, fun e => (hL r hr).2 (congrArg PinPtr.Node e)⟩)

/-- The second half of `ExpandNode` seen from the other nodes: every pin one of the
node's data pins was linked to ends linked to the call's matching pin, links the other
nodes hold to pins outside the node are kept, and no pin is left linked to a pin of the
node. -/
theorem expand_tail_far (g : UEdGraph) (self call : Nat) (NodeID : String)
    (id im io itr : Nat) (pd pm po pr : UEdGraphPin)
    (hsc : self ≠ call)
    (hd : g.pin? ⟨self, id⟩ = some pd) (hm : g.pin? ⟨self, im⟩ = some pm)
    (ho : g.pin? ⟨self, io⟩ = some po) (hr : g.pin? ⟨self, itr⟩ = some pr)
    (hdm : im ≠ id) (hdo : io ≠ id) (hdr : itr ≠ id) (hmo : io ≠ im) (hmr : itr ≠ im)
    (hor : itr ≠ io)
    (hLd : ∀ r ∈ pd.LinkedTo, r.Node ≠ self ∧ r.Node ≠ call)
    (hLm : ∀ r ∈ pm.LinkedTo, r.Node ≠ self ∧ r.Node ≠ call)
    (hLo : ∀ r ∈ po.LinkedTo, r.Node ≠ self ∧ r.Node ≠ call)
    (hLr : ∀ r ∈ pr.LinkedTo, r.Node ≠ self ∧ r.Node ≠ call)
    (hI : ∀ q : PinPtr, q.Node ≠ self → ∀ x ∈ g.linksOf q, x.Node = self → q ∈ g.linksOf x)
    (G : UEdGraph)
    (hG : G = BreakAllNodeLinks
        (MovePinLinksToIntermediate
          (MovePinLinksToIntermediate
            (SetDefaultValue
              (MovePinLinksToIntermediate
                (MovePinLinksToIntermediate g ⟨self, id⟩ ⟨call, 4⟩)
                ⟨self, im⟩ ⟨call, 5⟩)
              ⟨call, 6⟩ NodeID)
            ⟨self, io⟩ ⟨call, 8⟩)
          ⟨self, itr⟩ ⟨call, 7⟩)
        self) :
    (∀ r ∈ pd.LinkedTo, (g.pin? r).isSome = true → (⟨call, 4⟩ : PinPtr) ∈ G.linksOf r)
      ∧ (∀ r ∈ pm.LinkedTo, (g.pin? r).isSome = true → (⟨call, 5⟩ : PinPtr) ∈ G.linksOf r)
      ∧ (∀ r ∈ po.LinkedTo, (g.pin? r).isSome = true → (⟨call, 8⟩ : PinPtr) ∈ G.linksOf r)
      ∧ (∀ r ∈ pr.LinkedTo, (g.pin? r).isSome = true → (⟨call, 7⟩ : PinPtr) ∈ G.linksOf r)
      ∧ (∀ r c : PinPtr, c ∈ g.linksOf r → r.Node ≠ self → r.Node ≠ call → c.Node ≠ self →
          c ∈ G.linksOf r)
      ∧ (∀ (q : PinPtr), ∀ x ∈ G.linksOf q, x.Node ≠ self) := by
  subst hG
  have hcs : call ≠ self := fun e => hsc e.symm
  -- first move
  have sm : (MovePinLinksToIntermediate g ⟨self, id⟩ ⟨call, 4⟩).pin? ⟨self, im⟩ = some pm := by
    rw [step_self g self call id 4 im pd hd hLd hsc hdm, hm]
  have so : (MovePinLinksToIntermediate g ⟨self, id⟩ ⟨call, 4⟩).pin? ⟨self, io⟩ = some po := by
    rw [step_self g self call id 4 io pd hd hLd hsc hdo, ho]
  have sr : (MovePinLinksToIntermediate g ⟨self, id⟩ ⟨call, 4⟩).pin? ⟨self, itr⟩ = some pr := by
    rw [step_self g self call id 4 itr pd hd hLd hsc hdr, hr]
  have i1 := mutual_step g self call id 4 pd hI hd hsc hLd
  have qd : ∀ r ∈ pd.LinkedTo, (g.pin? r).isSome = true →
      (⟨call, 4⟩ : PinPtr) ∈ (MovePinLinksToIntermediate g ⟨self, id⟩ ⟨call, 4⟩).linksOf r :=
    fun r hr he => far_make_Move g self call id 4 r pd hd hr (hLd r hr).1 (hLd r hr).2 he
  have ex : ∀ r, ((MovePinLinksToIntermediate g ⟨self, id⟩ ⟨call, 4⟩).pin? r).isSome
      = (g.pin? r).isSome := fun r => isSome_pin?_Move g _ _ r
  have kp : ∀ r c : PinPtr, c ∈ g.linksOf r → r.Node ≠ self → r.Node ≠ call → c.Node ≠ self →
      c ∈ (MovePinLinksToIntermediate g ⟨self, id⟩ ⟨call, 4⟩).linksOf r :=
    fun r c h a b d => far_keep_Move g self call id 4 r c h a b d
  generalize MovePinLinksToIntermediate g ⟨self, id⟩ ⟨call, 4⟩ = G1 at sm so sr i1 qd ex kp ⊢
  -- second move
  have so2 : (MovePinLinksToIntermediate G1 ⟨self, im⟩ ⟨call, 5⟩).pin? ⟨self, io⟩ = some po := by
    rw [step_self G1 self call im 5 io pm sm hLm hsc hmo, so]
  have sr2 : (MovePinLinksToIntermediate G1 ⟨self, im⟩ ⟨call, 5⟩).pin? ⟨self, itr⟩ = some pr := by
    rw [step_self G1 self call im 5 itr pm sm hLm hsc hmr, sr]
  have i2 := mutual_step G1 self call im 5 pm i1 sm hsc hLm
  have qd2 : ∀ r ∈ pd.LinkedTo, (g.pin? r).isSome = true →
      (⟨call, 4⟩ : PinPtr) ∈ (MovePinLinksToIntermediate G1 ⟨self, im⟩ ⟨call, 5⟩).linksOf r :=
    fun r hr he => far_keep_Move G1 self call im 5 r _ (qd r hr he) (hLd r hr).1 (hLd r hr).2 hcs
  have qm2 : ∀ r ∈ pm.LinkedTo, (g.pin? r).isSome = true →
      (⟨call, 5⟩ : PinPtr) ∈ (MovePinLinksToIntermediate G1 ⟨self, im⟩ ⟨call, 5⟩).linksOf r :=
    fun r hr he => far_make_Move G1 self call im 5 r pm sm hr (hLm r hr).1 (hLm r hr).2
      (by rw [ex]; exact he)
  have ex2 : ∀ r, ((MovePinLinksToIntermediate G1 ⟨self, im⟩ ⟨call, 5⟩).pin? r).isSome
      = (g.pin? r).isSome := fun r => (isSome_pin?_Move G1 _ _ r).trans (ex r)
  have kp2 : ∀ r c : PinPtr, c ∈ g.linksOf r → r.Node ≠ self → r.Node ≠ call → c.Node ≠ self →
      c ∈ (MovePinLinksToIntermediate G1 ⟨self, im⟩ ⟨call, 5⟩).linksOf r :=
    fun r c h a b d => far_keep_Move G1 self call im 5 r c (kp r c h a b d) a b d
  generalize MovePinLinksToIntermediate G1 ⟨self, im⟩ ⟨call, 5⟩ = G2
    at so2 sr2 i2 qd2 qm2 ex2 kp2 ⊢
  clear sm so sr i1 qd ex kp
  -- the NodeID default
  have so3 : (SetDefaultValue G2 ⟨call, 6⟩ NodeID).pin? ⟨self, io⟩ = some po := by
    rw [set_self G2 self call 6 io NodeID hsc, so2]
  have sr3 : (SetDefaultValue G2 ⟨call, 6⟩ NodeID).pin? ⟨self, itr⟩ = some pr := by
    rw [set_self G2 self call 6 itr NodeID hsc, sr2]
  have i3 := SetDefaultValue_preserves_mutual G2 self ⟨call, 6⟩ NodeID i2
  have qd3 : ∀ r ∈ pd.LinkedTo, (g.pin? r).isSome = true →
      (⟨call, 4⟩ : PinPtr) ∈ (SetDefaultValue G2 ⟨call, 6⟩ NodeID).linksOf r :=
    fun r hr he => by rw [linksOf_SetDefaultValue]; exact qd2 r hr he
  have qm3 : ∀ r ∈ pm.LinkedTo, (g.pin? r).isSome = true →
      (⟨call, 5⟩ : PinPtr) ∈ (SetDefaultValue G2 ⟨call, 6⟩ NodeID).linksOf r :=
    fun r hr he => by rw [linksOf_SetDefaultValue]; exact qm2 r hr he
  have ex3 : ∀ r, ((SetDefaultValue G2 ⟨call, 6⟩ NodeID).pin? r).isSome
      = (g.pin? r).isSome := fun r => (isSome_pin?_SetDefaultValue G2 _ r NodeID).trans (ex2 r)
  have kp3 : ∀ r c : PinPtr, c ∈ g.linksOf r → r.Node ≠ self → r.Node ≠ call → c.Node ≠ self →
      c ∈ (SetDefaultValue G2 ⟨call, 6⟩ NodeID).linksOf r :=
    fun r c h a b d => by rw [linksOf_SetDefaultValue]; exact kp2 r c h a b d
  generalize SetDefaultValue G2 ⟨call, 6⟩ NodeID = G3 at so3 sr3 i3 qd3 qm3 ex3 kp3 ⊢
  clear so2 sr2 i2 qd2 qm2 ex2 kp2
  -- third move
  have sr4 : (MovePinLinksToIntermediate G3 ⟨self, io⟩ ⟨call, 8⟩).pin? ⟨self, itr⟩ = some pr := by
    rw [step_self G3 self call io 8 itr po so3 hLo hsc hor, sr3]
  have i4 := mutual_step G3 self call io 8 po i3 so3 hsc hLo
  have qd4 : ∀ r ∈ pd.LinkedTo, (g.pin? r).isSome = true →
      (⟨call, 4⟩ : PinPtr) ∈ (MovePinLinksToIntermediate G3 ⟨self, io⟩ ⟨call, 8⟩).linksOf r :=
    fun r hr he => far_keep_Move G3 self call io 8 r _ (qd3 r hr he) (hLd r hr).1 (hLd r hr).2 hcs
  have qm4 : ∀ r ∈ pm.LinkedTo, (g.pin? r).isSome = true →
      (⟨call, 5⟩ : PinPtr) ∈ (MovePinLinksToIntermediate G3 ⟨self, io⟩ ⟨call, 8⟩).linksOf r :=
    fun r hr he => far_keep_Move G3 self call io 8 r _ (qm3 r hr he) (hLm r hr).1 (hLm r hr).2 hcs
  have qo4 : ∀ r ∈ po.LinkedTo, (g.pin? r).isSome = true →
      (⟨call, 8⟩ : PinPtr) ∈ (MovePinLinksToIntermediate G3 ⟨self, io⟩ ⟨call, 8⟩).linksOf r :=
    fun r hr he => far_make_Move G3 self call io 8 r po so3 hr (hLo r hr).1 (hLo r hr).2
      (by rw [ex3]; exact he)
  have ex4 : ∀ r, ((MovePinLinksToIntermediate G3 ⟨self, io⟩ ⟨call, 8⟩).pin? r).isSome
      = (g.pin? r).isSome := fun r => (isSome_pin?_Move G3 _ _ r).trans (ex3 r)
  have kp4 : ∀ r c : PinPtr, c ∈ g.linksOf r → r.Node ≠ self → r.Node ≠ call → c.Node ≠ self →
      c ∈ (MovePinLinksToIntermediate G3 ⟨self, io⟩ ⟨call, 8⟩).linksOf r :=
    fun r c h a b d => far_keep_Move G3 self call io 8 r c (kp3 r c h a b d) a b d
  generalize MovePinLinksToIntermediate G3 ⟨self, io⟩ ⟨call, 8⟩ = G4
    at sr4 i4 qd4 qm4 qo4 ex4 kp4 ⊢
  clear so3 sr3 i3 qd3 qm3 ex3 kp3
  -- fourth move
  have i5 := mutual_step G4 self call itr 7 pr i4 sr4 hsc hLr
  have qd5 : ∀ r ∈ pd.LinkedTo, (g.pin? r).isSome = true →
      (⟨call, 4⟩ : PinPtr) ∈ (MovePinLinksToIntermediate G4 ⟨self, itr⟩ ⟨call, 7⟩).linksOf r :=
    fun r hr he => far_keep_Move G4 self call itr 7 r _ (qd4 r hr he) (hLd r hr).1 (hLd r hr).2 hcs
  have qm5 : ∀ r ∈ pm.LinkedTo, (g.pin? r).isSome = true →
      (⟨call, 5⟩ : PinPtr) ∈ (MovePinLinksToIntermediate G4 ⟨self, itr⟩ ⟨call, 7⟩).linksOf r :=
    fun r hr he => far_keep_Move G4 self call itr 7 r _ (qm4 r hr he) (hLm r hr).1 (hLm r hr).2 hcs
  have qo5 : ∀ r ∈ po.LinkedTo, (g.pin? r).isSome = true →
      (⟨call, 8⟩ : PinPtr) ∈ (MovePinLinksToIntermediate G4 ⟨self, itr⟩ ⟨call, 7⟩).linksOf r :=
    fun r hr he => far_keep_Move G4 self call itr 7 r _ (qo4 r hr he) (hLo r hr).1 (hLo r hr).2 hcs
  have qr5 : ∀ r ∈ pr.LinkedTo, (g.pin? r).isSome = true →
      (⟨call, 7⟩ : PinPtr) ∈ (MovePinLinksToIntermediate G4 ⟨self, itr⟩ ⟨call, 7⟩).linksOf r :=
    fun r hr he => far_make_Move G4 self call itr 7 r pr sr4 hr (hLr r hr).1 (hLr r hr).2
      (by rw [ex4]; exact he)
  have kp5 : ∀ r c : PinPtr, c ∈ g.linksOf r → r.Node ≠ self → r.Node ≠ call → c.Node ≠ self →
      c ∈ (MovePinLinksToIntermediate G4 ⟨self, itr⟩ ⟨call, 7⟩).linksOf r :=
    fun r c h a b d => far_keep_Move G4 self call itr 7 r c (kp4 r c h a b d) a b d
  generalize MovePinLinksToIntermediate G4 ⟨self, itr⟩ ⟨call, 7⟩ = G5
    at i5 qd5 qm5 qo5 qr5 kp5 ⊢
  -- the node's links are broken
  refine ⟨?_, ?_, ?_, ?_, ?_, BreakAllNodeLinks_no_refs G5 self i5⟩
  · exact fun r hr he => mem_linksOf_Break_keep G5 self r _ (qd5 r hr he) (hLd r hr).1 hcs
  · exact fun r hr he => mem_linksOf_Break_keep G5 self r _ (qm5 r hr he) (hLm r hr).1 hcs
  · exact fun r hr he => mem_linksOf_Break_keep G5 self r _ (qo5 r hr he) (hLo r hr).1 hcs
  · exact fun r hr he => mem_linksOf_Break_keep G5 self r _ (qr5 r hr he) (hLr r hr).1 hcs
  · exact fun r c h a b d => mem_linksOf_Break_keep G5 self r c (kp5 r c h a b d) a d

/-- The first half of `ExpandNode` seen from the other nodes: every pin the node's exec
or then pin was linked to is linked to the call's `execute` or `then` pin when
`ConnectContextActor` is called, and the pins of the other nodes are still there. -/
theorem expand_head_far (Super : UInteractMLNode) (ctx : FKismetCompilerContext)
    (g : UEdGraph) (self : Nat) (nd : UEdGraphNode) (ie it : Nat) (pe pt : UEdGraphPin)
    (hnode : (Super.ExpandNode g self).Nodes[self]? = some nd)
    (he : nd.Pins[ie]? = some pe) (ht : nd.Pins[it]? = some pt)
    (hte : it ≠ ie)
    (hLe : ∀ r ∈ pe.LinkedTo, r.Node ≠ self ∧ r.Node ≠ (Super.ExpandNode g self).Nodes.length)
    (hLt : ∀ r ∈ pt.LinkedTo, r.Node ≠ self ∧ r.Node ≠ (Super.ExpandNode g self).Nodes.length) :
    (∀ r ∈ pe.LinkedTo, ((Super.ExpandNode g self).pin? r).isSome = true →
        (⟨(Super.ExpandNode g self).Nodes.length, 0⟩ : PinPtr)
          ∈ (graphAtConnectContextActor Super ctx g self ie it).linksOf r)
      ∧ (∀ r ∈ pt.LinkedTo, ((Super.ExpandNode g self).pin? r).isSome = true →
        (⟨(Super.ExpandNode g self).Nodes.length, 1⟩ : PinPtr)
          ∈ (graphAtConnectContextActor Super ctx g self ie it).linksOf r)
      ∧ (∀ r : PinPtr, ((Super.ExpandNode g self).pin? r).isSome = true →
        ((graphAtConnectContextActor Super ctx g self ie it).pin? r).isSome = true) := by
  have hlt : self < (Super.ExpandNode g self).Nodes.length := by
    by_contra hc
    rw [List.getElem?_eq_none (Nat.le_of_not_lt hc)] at hnode
    exact Option.noConfusion hnode
  have hsc : self ≠ (Super.ExpandNode g self).Nodes.length := Nat.ne_of_lt hlt
  have hcs : (Super.ExpandNode g self).Nodes.length ≠ self := fun e => hsc e.symm
  have hself : ∀ j, ((Super.ExpandNode g self).AddNode
      (UK2Node_CallFunction FindModelAccessFunction ctx.NewGuid)).pin? ⟨self, j⟩ = nd.Pins[j]? := by
    intro j
    rw [pin?_AddNode_of_lt _ _ _ hlt]
    simp [UEdGraph.pin?, hnode]
  have hex : ∀ r : PinPtr, ((Super.ExpandNode g self).pin? r).isSome = true →
      (((Super.ExpandNode g self).AddNode
        (UK2Node_CallFunction FindModelAccessFunction ctx.NewGuid)).pin? r).isSome = true := by
    intro r hr
    have hrl : r.Node < (Super.ExpandNode g self).Nodes.length := by
      by_contra hc
      have : (Super.ExpandNode g self).pin? r = none := by
        simp [UEdGraph.pin?, List.getElem?_eq_none (Nat.le_of_not_lt hc)]
      rw [this] at hr
      exact Bool.noConfusion hr
    rw [pin?_AddNode_of_lt _ _ _ hrl]
    exact hr
  unfold graphAtConnectContextActor
  simp only []
  generalize (Super.ExpandNode g self).AddNode
    (UK2Node_CallFunction FindModelAccessFunction ctx.NewGuid) = g2 at hself hex ⊢
  generalize (Super.ExpandNode g self).Nodes.length = call at hsc hcs hLe hLt ⊢
  have se : g2.pin? ⟨self, ie⟩ = some pe := by rw [hself, he]
  have st : (MovePinLinksToIntermediate g2 ⟨self, ie⟩ ⟨call, 0⟩).pin? ⟨self, it⟩ = some pt := by
    rw [step_self g2 self call ie 0 it pe se hLe hsc hte, hself, ht]
  refine ⟨?_, ?_, ?_⟩
  · intro r hr hx
    exact far_keep_Move _ self call it 1 r _
      (far_make_Move g2 self call ie 0 r pe se hr (hLe r hr).1 (hLe r hr).2 (hex r hx))
      (hLe r hr).1 (hLe r hr).2 hcs
  · intro r hr hx
    exact far_make_Move _ self call it 1 r pt st hr (hLt r hr).1 (hLt r hr).2
      (by rw [isSome_pin?_Move]; exact hex r hx)
  · intro r hx
    rw [isSome_pin?_Move, isSome_pin?_Move]
    exact hex r hx

theorem mem_kept_of_mem (base l1 l2 l3 l4 l5 l6 : List PinPtr) (r : PinPtr)
    (h : r ∈ l1 ∨ r ∈ l2 ∨ r ∈ l3 ∨ r ∈ l4 ∨ r ∈ l5 ∨ r ∈ l6) :
    r ∈ base ++ l1 ++ l2 ++ l3 ++ l4 ++ l5 ++ l6 := by
  simp only [List.mem_append]
  tauto

theorem mem_kept_of_base (base l1 l2 l3 l4 l5 l6 : List PinPtr) (r : PinPtr)
    (h : r ∈ base) : r ∈ base ++ l1 ++ l2 ++ l3 ++ l4 ++ l5 ++ l6 := by
  simp only [List.mem_append]
  tauto

/-- Witness for C9: the node of the examples, whose base class creates `execute`, `then`
and `Actor`; the four getters return the pins at positions 3, 4, 5 and 6. -/
theorem getters_after_AllocateDefaultPins_witness :
    ∃ data type model trained : Nat,
      GetDataPathInputPin (AllocateDefaultPins sampleSuper "Classification"
          { NodeClass := "InteractMLExternalModelNode", FunctionReference := none,
            NodeGuid := ⟨1, 2, 3, 2748⟩, Pins := [] }) = Except.ok (some data)
        ∧ GetModelTypeInputPin (AllocateDefaultPins sampleSuper "Classification"
          { NodeClass := "InteractMLExternalModelNode", FunctionReference := none,
            NodeGuid := ⟨1, 2, 3, 2748⟩, Pins := [] }) = Except.ok (some type)
        ∧ GetModelOutputPin (AllocateDefaultPins sampleSuper "Classification"
          { NodeClass := "InteractMLExternalModelNode", FunctionReference := none,
            NodeGuid := ⟨1, 2, 3, 2748⟩, Pins := [] }) = Except.ok (some model)
        ∧ GetIsTrainedOutputPin (AllocateDefaultPins sampleSuper "Classification"
          { NodeClass := "InteractMLExternalModelNode", FunctionReference := none,
            NodeGuid := ⟨1, 2, 3, 2748⟩, Pins := [] }) = Except.ok (some trained) :=
  let h := getters_after_AllocateDefaultPins sampleSuper "Classification"
    { NodeClass := "InteractMLExternalModelNode", FunctionReference := none,
      NodeGuid := ⟨1, 2, 3, 2748⟩, Pins := [] } (by decide)
  h.imp (fun _ h1 => h1.imp (fun _ h2 => h2.imp (fun _ h3 => h3.imp (fun _ h4 =>
    ⟨h4.1, h4.2.1, h4.2.2.1, h4.2.2.2.1⟩))))

/-- Witness for C4: expanding the node of the examples, whose GUID is
(1, 2, 3, 0xABC), sets the `NodeID` default of the call (node 3, pin 6) to the 32 digits
of that GUID, which differ from those of the GUID (1, 2, 3, 4). -/
theorem ExpandNode_sets_NodeID_witness :
    ∃ g', ExpandNode sampleSuper ⟨⟨7, 7, 7, 7⟩⟩ sampleGraph 1 = Except.ok g'
      ∧ (g'.pin? ⟨3, 6⟩).map (fun p => (p.PinName, p.DefaultValue))
          = some (FInteractMLExternalModelNodeModelAccessFunctionPinNames.NodeIDPinName,
                  "00000001000000020000000300000ABC")
      ∧ (⟨1, 2, 3, 4⟩ : FGuid).ToString EGuidFormats.Digits
          ≠ "00000001000000020000000300000ABC" :=
  let h := ExpandNode_sets_NodeID sampleSuper ⟨⟨7, 7, 7, 7⟩⟩ sampleGraph 1 sampleNode
    0 1 3 4 5 6 rfl rfl rfl rfl rfl rfl rfl rfl
  h.imp (fun _ h1 => ⟨h1.1, h1.2.1,
    h1.2.2 ⟨1, 2, 3, 4⟩ (by decide) (by decide) (by decide)⟩)

end InteractML
